import Mathlib

/-!
Verification development for the AppTwitter content-automation tool.

This file gives a shallow embedding, in Lean 4, of the two core subsystems of
the repository: the duplicate/safety filtering engine (src/filters.py together
with the text utilities of src/utils.py) and the scheduling / queue-state
engine (src/scheduler.py over the SQLite store of src/db.py).  Texts are
modelled as lists of characters, the SQLite tables as Lean lists, and every
operation is translated function by function from the Python source.

Modelling conventions, stated once here:
* Python `str` regular expression classes are modelled on the character sets
  that actually occur in this application: the whitespace class is the ASCII
  whitespace set, and the word class is ASCII alphanumerics, the underscore
  and the accented Spanish letters.  Unicode beyond that set is outside the
  model.
* `datetime` values are modelled as (day, hour, minute, second) tuples with
  lexicographic order; `timedelta(days=1)` is day + 1 and `DATE(x)` is the day
  component.  Iso-formatted timestamp strings compare equal exactly when the
  underlying datetimes are equal, so equality of the model values is faithful.
* SHA-256 of the normalized text (utils.hash_text) is modelled as the
  normalized text itself: the hash is used by the code purely as an injective
  fingerprint of the normalized text, and the model keeps that fingerprint
  collision free.
* rapidfuzz fuzz.ratio is the indel similarity as a percentage, computed here
  exactly over the rationals: 100 * 2 * lcs(a,b) / (len a + len b).  The
  floating point rounding of the library at this scale is not modelled; the
  comparison with the 0.85 threshold is exact.
-/

/-- Python lower-casing (str.lower) restricted to the character set used by
this application: ASCII letters plus the accented Spanish capitals. -/
def pyLower (c : Char) : Char :=
  if c = 'Á' then 'á' else if c = 'É' then 'é' else if c = 'Í' then 'í'
  else if c = 'Ó' then 'ó' else if c = 'Ú' then 'ú' else if c = 'Ñ' then 'ñ'
  else if c = 'Ü' then 'ü' else c.toLower

/-- Membership in the Python regex class \s (ASCII part). -/
def isSpaceChar (c : Char) : Bool :=
  c == ' ' || c == '\t' || c == '\n' || c == '\x0d' || c == '\x0b' || c == '\x0c'

/-- Accented letters of the target language, word characters for Python \w. -/
def isAccented (c : Char) : Bool :=
  c == 'á' || c == 'é' || c == 'í' || c == 'ó' || c == 'ú' || c == 'ñ' || c == 'ü' ||
  c == 'Á' || c == 'É' || c == 'Í' || c == 'Ó' || c == 'Ú' || c == 'Ñ' || c == 'Ü'

/-- Membership in the Python regex class \w on the modelled character set. -/
def isWordChar (c : Char) : Bool :=
  c.isAlphanum || c == '_' || isAccented c

/-- Does the URL pattern of utils.py, regex http\S+|www\.\S+, match at the
head of the list: the literal http, or www., followed by at least one
non-space character. -/
def urlAt : List Char → Bool
  | 'h' :: 't' :: 't' :: 'p' :: c :: _ => !isSpaceChar c
  | 'w' :: 'w' :: 'w' :: '.' :: c :: _ => !isSpaceChar c
  | _ => false

/-- Scanner for re.sub of the URL pattern http\S+|www\.\S+ by a fixed
replacement, processed one character at a time so that the recursion is
structural: the flag records that the scan is inside a matched URL token
(a maximal non-space run whose replacement has already been emitted). -/
def subUrlGo (repl : List Char) : Bool → List Char → List Char
  | _, [] => []
  | true, c :: cs =>
    if !isSpaceChar c then subUrlGo repl true cs
    else c :: subUrlGo repl false cs
  | false, c :: cs =>
    if urlAt (c :: cs) then repl ++ subUrlGo repl true cs
    else c :: subUrlGo repl false cs

/-- re.sub of the URL pattern by a fixed replacement, scanning left to
right; each match greedily consumes the whole non-space run starting at the
match position. -/
def subUrl (repl : List Char) (l : List Char) : List Char :=
  subUrlGo repl false l

/-- Is the head of the list a word character. -/
def headIsWord : List Char → Bool
  | [] => false
  | d :: _ => isWordChar d

/-- Scanner for re.sub of the mention/hashtag pattern [@#]\w+ by the empty
string; the flag records that the scan is inside the word run of a match
being deleted. -/
def stripMentionsGo : Bool → List Char → List Char
  | _, [] => []
  | true, c :: cs =>
    if isWordChar c then stripMentionsGo true cs
    else if (c == '@' || c == '#') && headIsWord cs then stripMentionsGo true cs
    else c :: stripMentionsGo false cs
  | false, c :: cs =>
    if (c == '@' || c == '#') && headIsWord cs then stripMentionsGo true cs
    else c :: stripMentionsGo false cs

/-- re.sub of [@#]\w+ by the empty string: an @ or # followed by at least
one word character is deleted together with the word run after it. -/
def stripMentions (l : List Char) : List Char :=
  stripMentionsGo false l

/-- re.sub of [^\w\s] by the empty string: keep only word and space chars. -/
def stripPunct (l : List Char) : List Char :=
  l.filter fun c => isWordChar c || isSpaceChar c

/-- Scanner for re.sub of \s+ by a single space; the flag records that the
scan is inside a whitespace run whose single replacement space has already
been emitted. -/
def collapseWsGo : Bool → List Char → List Char
  | _, [] => []
  | true, c :: cs =>
    if isSpaceChar c then collapseWsGo true cs
    else c :: collapseWsGo false cs
  | false, c :: cs =>
    if isSpaceChar c then ' ' :: collapseWsGo true cs
    else c :: collapseWsGo false cs

/-- re.sub of \s+ by a single space: each maximal whitespace run collapses
to one space character. -/
def collapseWs (l : List Char) : List Char :=
  collapseWsGo false l

/-- Python str.strip on the modelled whitespace set. -/
def pyStrip (l : List Char) : List Char :=
  ((l.dropWhile isSpaceChar).reverse.dropWhile isSpaceChar).reverse

/-- utils.normalize_text: lower-case, remove URLs, remove mentions and
hashtags, remove punctuation, collapse whitespace, strip. -/
def normalize_text (t : List Char) : List Char :=
  pyStrip (collapseWs (stripPunct (stripMentions (subUrl [] (t.map pyLower)))))

/-- utils.hash_text: SHA-256 hex digest of the normalized text.  The digest
is modelled as the normalized text itself (an injective, collision-free
fingerprint, which is exactly the property the code relies on). -/
def hash_text (t : List Char) : List Char :=
  normalize_text t

/-- utils.count_chars: effective tweet length, where every match of the URL
pattern counts as exactly 23 characters (the re.sub by 23 placeholder
characters followed by len). -/
def count_chars (t : List Char) : Nat :=
  (subUrl (List.replicate 23 'X') t).length

/-- Does some suffix of the text start a URL-pattern match (the positions at
which re.sub of the URL pattern would fire). -/
def hasUrlToken (t : List Char) : Bool :=
  t.tails.any urlAt

/-- Abstract syntax of the small regular-expression fragment used by the
filter patterns of filters.py: character classes, concatenation,
alternation, Kleene star and the zero-width word boundary \b. -/
inductive RE where
  | eps : RE
  | cls : (Char → Bool) → RE
  | seq : RE → RE → RE
  | alt : RE → RE → RE
  | star : RE → RE
  | wb : RE

/-- Structural size of a pattern, used to bound the backtracking depth. -/
def reSize : RE → Nat
  | .eps => 1
  | .cls _ => 1
  | .seq a b => reSize a + reSize b + 1
  | .alt a b => reSize a + reSize b + 1
  | .star a => reSize a + 1
  | .wb => 1

/-- The word-boundary test of Python re: the position between the previous
character (none at the start) and the rest of the input lies on a boundary
when exactly one side is a word character. -/
def atWordBoundary (prev : Option Char) (s : List Char) : Bool :=
  (match prev with | none => false | some c => isWordChar c) !=
  (match s with | [] => false | c :: _ => isWordChar c)

/-- Backtracking matcher in continuation-passing style.  The continuation
receives the previous character and the remaining input.  The fuel bounds
the depth of nested calls; every star iteration must consume input, and the
fuel supplied by reSearch exceeds the longest possible call chain, so the
fuel never runs out on the patterns of this file. -/
def reMatch : Nat → RE → Option Char → List Char → (Option Char → List Char → Bool) → Bool
  | 0, _, _, _, _ => false
  | _ + 1, .eps, prev, s, k => k prev s
  | _ + 1, .cls p, _, s, k =>
    match s with
    | [] => false
    | c :: rest => p c && k (some c) rest
  | n + 1, .seq a b, prev, s, k =>
    reMatch n a prev s fun p2 s2 => reMatch n b p2 s2 k
  | n + 1, .alt a b, prev, s, k =>
    reMatch n a prev s k || reMatch n b prev s k
  | n + 1, .star a, prev, s, k =>
    k prev s || reMatch n a prev s fun p2 s2 =>
      decide (s2.length < s.length) && reMatch n (.star a) p2 s2 k
  | _ + 1, .wb, prev, s, k => atWordBoundary prev s && k prev s

/-- Fuel that dominates the depth of any backtracking path: each input
character is consumed at most once per traversed pattern node. -/
def reFuel (r : RE) (s : List Char) : Nat :=
  (reSize r + 2) * (s.length + 2)

/-- Search for a match starting at any position at or after the current one;
prev is the character just before the current position. -/
def reSearchFrom (r : RE) (prev : Option Char) : List Char → Bool
  | [] => reMatch (reFuel r []) r prev [] fun _ _ => true
  | c :: rest =>
    reMatch (reFuel r (c :: rest)) r prev (c :: rest) (fun _ _ => true) ||
    reSearchFrom r (some c) rest

/-- Python re.search as a boolean: does the pattern match anywhere. -/
def reSearch (r : RE) (s : List Char) : Bool :=
  reSearchFrom r none s

/-- A single literal character. -/
def reChar (c : Char) : RE := RE.cls (fun d => d == c)

/-- A literal string. -/
def reLit (l : List Char) : RE :=
  l.foldr (fun c acc => RE.seq (reChar c) acc) RE.eps

/-- A character class listing its members. -/
def reOneOf (cs : List Char) : RE := RE.cls (fun d => cs.contains d)

/-- Concatenation of a list of patterns. -/
def reCat (rs : List RE) : RE := rs.foldr RE.seq RE.eps

/-- Zero-or-one occurrence. -/
def reOpt (r : RE) : RE := RE.alt r RE.eps

/-- One-or-more occurrences. -/
def rePlus (r : RE) : RE := RE.seq r (RE.star r)

/-- The class \s restricted to the modelled whitespace set. -/
def reSpace : RE := RE.cls isSpaceChar

/-- The class . of re without DOTALL: any character except newline. -/
def reDot : RE := RE.cls (fun c => !(c == '\n'))

/-- The aggressive-language patterns of TweetFilter.is_aggressive, in source
order. -/
def aggressivePatterns : List RE :=
  [ reCat [RE.wb, reLit "estúpid".toList, reOneOf ['o', 'a'], reOpt (reChar 's'), RE.wb]
  , reCat [RE.wb, reLit "idiot".toList, reOneOf ['o', 'a'], reOpt (reChar 's'), RE.wb]
  , reCat [RE.wb, reLit "imbécil".toList, reOpt (reLit "es".toList), RE.wb]
  , reCat [RE.wb, reLit "pelotud".toList, reOneOf ['o', 'a'], reOpt (reChar 's'), RE.wb]
  , reCat [RE.wb, reLit "boludo".toList, reOpt (reChar 's'), RE.wb]
  , reCat [RE.wb, reLit "pendej".toList, reOneOf ['o', 'a'], reOpt (reChar 's'), RE.wb]
  , reCat [RE.wb, reLit "ataque".toList, reOpt (reChar 's'), RE.wb, RE.star reDot,
           RE.wb, reLit "personal".toList, reOpt (reLit "es".toList), RE.wb]
  , reCat [RE.wb, reLit "vos".toList, RE.wb, RE.star reDot,
           RE.wb, RE.alt (reLit "sos".toList) (reLit "eres".toList), RE.wb, RE.star reDot,
           RE.wb, RE.alt (reLit "un".toList) (reLit "una".toList), RE.wb]
  ]

/-- The misleading-content patterns of TweetFilter.is_misleading, in source
order. -/
def misleadingPatterns : List RE :=
  [ reCat [reLit "click".toList, rePlus reSpace, reLit "aqu".toList, reOneOf ['í', 'i']]
  , reCat [reLit "haz".toList, rePlus reSpace, reLit "click".toList]
  , reCat [reLit "sigue".toList, rePlus reSpace, reLit "este".toList, rePlus reSpace,
           reLit "enlace".toList]
  , reCat [reLit "garant".toList, reOneOf ['í', 'i'], reChar 'a']
  , reCat [reLit "100%".toList, rePlus reSpace,
           RE.alt (reLit "seguro".toList) (RE.alt (reLit "efectivo".toList) (reLit "gratis".toList))]
  , reCat [RE.alt (reLit "gana".toList) (reCat [reLit "gan".toList, reOneOf ['á', 'a']]),
           rePlus reSpace, RE.alt (reLit "dinero".toList) (reLit "plata".toList)]
  ]

/-- TweetFilter.is_aggressive: search each pattern in the lower-cased text. -/
def is_aggressive (text : List Char) : Bool :=
  aggressivePatterns.any fun p => reSearch p (text.map pyLower)

/-- TweetFilter.is_misleading: search each pattern in the lower-cased text. -/
def is_misleading (text : List Char) : Bool :=
  misleadingPatterns.any fun p => reSearch p (text.map pyLower)

/-- Python substring containment (the in operator on str). -/
def isSubstringOf (needle hay : List Char) : Bool :=
  hay.tails.any fun t => needle.isPrefixOf t

/-- TweetFilter.contains_forbidden_words: case-insensitive substring match
of any word of the configured deny-list (voice.palabras_prohibidas). -/
def contains_forbidden_words (palabras_prohibidas : List (List Char)) (text : List Char) : Bool :=
  palabras_prohibidas.any fun w => isSubstringOf (w.map pyLower) (text.map pyLower)

/-- Model of a Python datetime: day number (linearised calendar date), hour,
minute and second, in lexicographic order.  Microseconds never matter here:
every timestamp the scheduler writes has second = 0 anyway. -/
structure DateTime where
  day : Nat
  hour : Nat
  minute : Nat
  second : Nat
deriving DecidableEq

/-- Chronological (lexicographic) order on datetimes, the Python comparison
of datetime values and of their iso-format strings. -/
def dtLe (a b : DateTime) : Bool :=
  a.day < b.day ||
  (a.day == b.day && (a.hour < b.hour ||
    (a.hour == b.hour && (a.minute < b.minute ||
      (a.minute == b.minute && a.second ≤ b.second)))))

/-- Strict chronological order on datetimes. -/
def dtLt (a b : DateTime) : Bool :=
  dtLe a b && !(a == b)

/-- One row of the tweet_candidates table of db.py. -/
structure Candidate where
  id : Nat
  content : List Char
  content_hash : List Char
  tweet_type : List Char
  created_at : DateTime
deriving DecidableEq

/-- One row of the tweet_queue table of db.py. -/
structure QueueEntry where
  id : Nat
  candidate_id : Nat
  status : String
  scheduled_at : Option DateTime
  created_at : DateTime
  updated_at : DateTime
deriving DecidableEq

/-- One row of the tweets_publicados table of db.py. -/
structure PublishedTweet where
  candidate_id : Nat
  tweet_id : Option String
  posted_at : DateTime
  platform_response : Option String
deriving DecidableEq

/-- One row of the logs table of db.py. -/
structure LogEntry where
  level : String
  message : String
  context : Option String
deriving DecidableEq

/-- The persistent store of db.py: the four tables the core touches, plus
the autoincrement counter of tweet_queue. -/
structure DB where
  candidates : List Candidate
  queue : List QueueEntry
  published : List PublishedTweet
  logs : List LogEntry
  nextQueueId : Nat
deriving DecidableEq

/-- The freshly initialised store. -/
def emptyDB : DB :=
  { candidates := [], queue := [], published := [], logs := [], nextQueueId := 1 }

/-- Inner loop of the longest-common-subsequence row update: walk the second
string and the previous row together, carrying the diagonal and left values. -/
def lcsRowGo (c : Char) : List Char → List Nat → Nat → Nat → List Nat
  | [], _, _, _ => []
  | _ :: _, [], _, _ => []
  | b :: bs, v :: vs, diag, left =>
    let n := if c == b then diag + 1 else max left v
    n :: lcsRowGo c bs vs v n

/-- One row update of the longest-common-subsequence dynamic program. -/
def lcsRow (c : Char) (b : List Char) (old : List Nat) : List Nat :=
  match old with
  | [] => []
  | v0 :: rest => 0 :: lcsRowGo c b rest v0 0

/-- Fold the row update over the first string. -/
def lcsAux : List Char → List Char → List Nat → List Nat
  | [], _, row => row
  | c :: cs, b, row => lcsAux cs b (lcsRow c b row)

/-- Length of the longest common subsequence of two strings. -/
def lcs (a b : List Char) : Nat :=
  (lcsAux a b (List.replicate (b.length + 1) 0)).getLastD 0

/-- rapidfuzz fuzz.ratio as an exact rational: the normalized indel
similarity as a percentage, 100 * (la + lb - dist) / (la + lb) with
dist = la + lb - 2 * lcs, i.e. 200 * lcs / (la + lb); two empty strings
have ratio 100. -/
def fuzzRatio (a b : List Char) : ℚ :=
  if a.length + b.length = 0 then mkRat 100 1
  else mkRat (200 * (lcs a b : Int)) (a.length + b.length)

/-- Exact division of a rational by 100 (the / 100.0 of the source),
written with mkRat so that the kernel can evaluate it. -/
def divBy100 (x : ℚ) : ℚ := mkRat x.num (x.den * 100)

/-- The similarity value is_duplicate compares with the threshold:
fuzz.ratio of the two normalized texts, divided by 100. -/
def similarity (a b : List Char) : ℚ := divBy100 (fuzzRatio a b)

/-- The 100 most recently created candidates (ORDER BY created_at DESC
LIMIT 100), the recency window of the fuzzy duplicate scan. -/
def recent_tweets (db : DB) : List Candidate :=
  (List.insertionSort (fun a b => dtLe b.created_at a.created_at = true) db.candidates).take 100

/-- TweetFilter.is_duplicate: exact layer first (content-hash lookup over
the whole tweet_candidates table), then the fuzzy layer (similarity of
normalized texts against the recency window, compared with the threshold;
the default threshold 0.85 is supplied by the caller). -/
def is_duplicate (db : DB) (text : List Char) (threshold : ℚ) : Bool :=
  let text_hash := hash_text text
  match db.candidates.find? (fun c => c.content_hash == text_hash) with
  | some _ => true
  | none =>
    let normalized := normalize_text text
    (recent_tweets db).any fun c =>
      decide (threshold ≤ similarity normalized (normalize_text c.content))

/-- Rejection reason of the duplicate check. -/
def dupMsg : List Char := "Tweet duplicado o muy similar a uno existente".toList

/-- Rejection reason of the forbidden-words check. -/
def forbiddenMsg : List Char := "Contiene palabras prohibidas".toList

/-- Rejection reason of the aggressive-language check. -/
def aggressiveMsg : List Char := "Contiene lenguaje agresivo o personalista".toList

/-- Rejection reason of the misleading-content check. -/
def misleadingMsg : List Char := "Contiene contenido potencialmente engañoso".toList

/-- Rejection reason of the maximum-length check, with the effective length
interpolated as in the f-string of the source. -/
def tooLongMsg (n : Nat) : List Char :=
  "Excede longitud máxima (280 caracteres): ".toList ++ (Nat.repr n).toList

/-- Rejection reason of the minimum-length check. -/
def tooShortMsg : List Char := "Demasiado corto (mínimo 10 caracteres)".toList

/-- TweetFilter.validate: the four content checks in source order, short
circuiting, then the two length checks; the first failing check determines
the reported reason. -/
def validate (palabras_prohibidas : List (List Char)) (db : DB) (text : List Char) :
    Bool × Option (List Char) :=
  if is_duplicate db text (mkRat 17 20) then (false, some dupMsg)
  else if contains_forbidden_words palabras_prohibidas text then (false, some forbiddenMsg)
  else if is_aggressive text then (false, some aggressiveMsg)
  else if is_misleading text then (false, some misleadingMsg)
  else
    let actual_length := count_chars text
    if actual_length > 280 then (false, some (tooLongMsg actual_length))
    else if text.length < 10 then (false, some tooShortMsg)
    else (true, none)

/-- Configuration of TweetScheduler: the daily cap (MAX_TWEETS_PER_DAY) and
the two fixed daily slots produced by _parse_slots, stored sorted so that
slot0 is the earlier clock time. -/
structure SchedulerConfig where
  max_tweets_per_day : Nat
  slot0 : Nat × Nat
  slot1 : Nat × Nat
deriving DecidableEq

/-- TweetScheduler._parse_slots: the morning and evening (hour, minute)
pairs, sorted ascending. -/
def mkSchedulerConfig (cap : Nat) (morning evening : Nat × Nat) : SchedulerConfig :=
  if morning.1 < evening.1 || (morning.1 == evening.1 && morning.2 ≤ evening.2) then
    ⟨cap, morning, evening⟩
  else
    ⟨cap, evening, morning⟩

/-- Does a queue row fall in the partial unique index idx_unique_slot of
db.py, i.e. status IN (scheduled, posted). -/
def inIdx (e : QueueEntry) : Bool :=
  e.status == "scheduled" || e.status == "posted"

/-- Do two rows collide in idx_unique_slot: both indexed, with the same
non-null scheduled_at (SQL UNIQUE treats NULLs as distinct). -/
def sameIdxSlot (a b : QueueEntry) : Bool :=
  inIdx a && inIdx b && a.scheduled_at.isSome && a.scheduled_at == b.scheduled_at

/-- The row image of an UPDATE ... WHERE: rows satisfying the predicate are
rewritten, the others kept. -/
def applyIf (pred : QueueEntry → Bool) (f : QueueEntry → QueueEntry) (e : QueueEntry) : QueueEntry :=
  if pred e then f e else e

/-- Would the UPDATE violate idx_unique_slot: some pair of distinct
positions, at least one of them updated, collides after the rewrite.
SQLite re-checks exactly the index entries of modified rows, so pairs of
untouched rows are not re-examined. -/
def updConflict (pred : QueueEntry → Bool) (f : QueueEntry → QueueEntry) :
    List QueueEntry → Bool
  | [] => false
  | e :: rest =>
    (rest.any fun x => (pred e || pred x) && sameIdxSlot (applyIf pred f e) (applyIf pred f x)) ||
    updConflict pred f rest

/-- Database.update on tweet_queue: on a uniqueness violation the statement
raises sqlite3.IntegrityError and changes nothing; otherwise it commits the
rewritten rows and reports the number of matched rows (cursor.rowcount). -/
def applyQueueUpdate (q : List QueueEntry) (pred : QueueEntry → Bool)
    (f : QueueEntry → QueueEntry) : Except Unit (List QueueEntry × Nat) :=
  if updConflict pred f q then .error ()
  else .ok (q.map (applyIf pred f), q.countP pred)

/-- TweetScheduler.add_to_queue: INSERT a row with the given status (the
callers pass drafted), null scheduled_at and fresh autoincrement id;
returns the new queue id. -/
def add_to_queue (db : DB) (candidate_id : Nat) (status : String) (now : DateTime) : DB × Nat :=
  let qid := db.nextQueueId
  ({ db with
      queue := db.queue ++
        [{ id := qid, candidate_id := candidate_id, status := status,
           scheduled_at := none, created_at := now, updated_at := now }],
      nextQueueId := qid + 1 },
   qid)

/-- TweetScheduler.approve_tweet: unguarded UPDATE of the status to
approved; True exactly when a row matched.  The none result is the
propagated storage exception (impossible for this statement, kept for
uniformity of the operation type). -/
def approve_tweet (now : DateTime) (db : DB) (queue_id : Nat) : DB × Option Bool :=
  match applyQueueUpdate db.queue (fun e => e.id == queue_id)
      (fun e => { e with status := "approved", updated_at := now }) with
  | .error _ => (db, none)
  | .ok (q, cnt) => ({ db with queue := q }, some (cnt != 0))

/-- TweetScheduler.skip_tweet: unguarded UPDATE of the status to skipped;
True exactly when a row matched. -/
def skip_tweet (now : DateTime) (db : DB) (queue_id : Nat) : DB × Option Bool :=
  match applyQueueUpdate db.queue (fun e => e.id == queue_id)
      (fun e => { e with status := "skipped", updated_at := now }) with
  | .error _ => (db, none)
  | .ok (q, cnt) => ({ db with queue := q }, some (cnt != 0))

/-- The datetime of a slot (hour, minute) on a given day, second 0, as
constructed by _get_next_available_slot. -/
def slotAt (d : Nat) (hm : Nat × Nat) : DateTime :=
  ⟨d, hm.1, hm.2, 0⟩

/-- The occupancy query of _get_next_available_slot: is some row already
scheduled or posted at exactly this timestamp. -/
def slot_taken (db : DB) (slot : DateTime) : Bool :=
  db.queue.any fun e => e.scheduled_at == some slot && inIdx e

/-- One slot probe of _get_next_available_slot: the slot must lie strictly
in the future and be unoccupied. -/
def try_slot_on_day (db : DB) (from_time : DateTime) (d : Nat) (hm : Nat × Nat) :
    Option DateTime :=
  let slot := slotAt d hm
  if dtLe slot from_time then none
  else if slot_taken db slot then none
  else some slot

/-- Probe the two daily slots of one day in ascending order. -/
def find_slot_in_day (cfg : SchedulerConfig) (db : DB) (from_time : DateTime) (d : Nat) :
    Option DateTime :=
  match try_slot_on_day db from_time d cfg.slot0 with
  | some s => some s
  | none => try_slot_on_day db from_time d cfg.slot1

/-- The bounded day scan of _get_next_available_slot. -/
def next_available_from (cfg : SchedulerConfig) (db : DB) (from_time : DateTime) :
    Nat → Nat → DateTime
  | 0, d => slotAt d cfg.slot0
  | fuel + 1, d =>
    match find_slot_in_day cfg db from_time d with
    | some s => s
    | none => next_available_from cfg db from_time fuel (d + 1)

/-- TweetScheduler._get_next_available_slot: scan up to 30 days ahead for a
future unoccupied slot; the fallback after the scan is the first slot of
the thirtieth following day. -/
def get_next_available_slot (cfg : SchedulerConfig) (db : DB) (from_time : DateTime) : DateTime :=
  next_available_from cfg db from_time 30 from_time.day

/-- Does a row match the day-count query of _can_schedule_on_day: DATE of
its scheduled_at equals the given day (null matches nothing) and the status
is scheduled or posted. -/
def onDayIdx (d : Nat) (e : QueueEntry) : Bool :=
  (match e.scheduled_at with | some t => t.day == d | none => false) && inIdx e

/-- The day-count query of _can_schedule_on_day: rows scheduled or posted
whose scheduled_at falls on the given calendar day. -/
def count_on_day (q : List QueueEntry) (d : Nat) : Nat :=
  (q.filter (onDayIdx d)).length

/-- TweetScheduler._can_schedule_on_day: the day of the candidate slot is
still under the daily cap. -/
def can_schedule_on_day (cfg : SchedulerConfig) (db : DB) (dt : DateTime) : Bool :=
  count_on_day db.queue dt.day < cfg.max_tweets_per_day

/-- TweetScheduler._get_next_day_slot: first slot of the following day. -/
def get_next_day_slot (cfg : SchedulerConfig) (dt : DateTime) : DateTime :=
  ⟨dt.day + 1, cfg.slot0.1, cfg.slot0.2, 0⟩

/-- TweetScheduler._get_slot_index: index of the slot whose clock time the
datetime carries, -1 when none matches. -/
def get_slot_index (cfg : SchedulerConfig) (dt : DateTime) : Int :=
  if dt.hour == cfg.slot0.1 && dt.minute == cfg.slot0.2 then 0
  else if dt.hour == cfg.slot1.1 && dt.minute == cfg.slot1.2 then 1
  else -1

/-- TweetScheduler._get_next_slot_after: when the index is below the last
slot the same day carries the next slot (index -1 rolls to slot 0 of the
same day, as in the source); otherwise the first slot of the next day. -/
def get_next_slot_after (cfg : SchedulerConfig) (dt : DateTime) : DateTime :=
  if get_slot_index cfg dt < 1 then
    if get_slot_index cfg dt == 0 then ⟨dt.day, cfg.slot1.1, cfg.slot1.2, 0⟩
    else ⟨dt.day, cfg.slot0.1, cfg.slot0.2, 0⟩
  else get_next_day_slot cfg dt

/-- The cap check and cursor roll at the top of each loop iteration of
schedule_approved_tweets: when the day of the cursor slot is at the cap,
move to the first slot of the next day (without re-checking that day). -/
def roll_if_capped (cfg : SchedulerConfig) (db : DB) (slot : DateTime) : DateTime :=
  if can_schedule_on_day cfg db slot then slot else get_next_day_slot cfg slot

/-- The row rewrite of the scheduling UPDATE: set scheduled_at to the slot,
status to scheduled, and touch updated_at. -/
def sched_update (now slot2 : DateTime) (e : QueueEntry) : QueueEntry :=
  { e with scheduled_at := some slot2, status := "scheduled", updated_at := now }

/-- The per-entry loop of schedule_approved_tweets.  Each iteration rolls
the cursor to the first slot of the next day when the daily cap check
fails, then commits the UPDATE; a storage-constraint violation propagates
(result none) and keeps the commits made so far, exactly as the uncaught
IntegrityError would. -/
def schedule_loop (cfg : SchedulerConfig) (now : DateTime) :
    List QueueEntry → DB → DateTime → Nat → DB × Option Nat
  | [], db, _, n => (db, some n)
  | t :: rest, db, slot, n =>
    match applyQueueUpdate db.queue (fun e => e.id == t.id)
        (sched_update now (roll_if_capped cfg db slot)) with
    | .error _ => (db, none)
    | .ok (q, _) =>
      schedule_loop cfg now rest { db with queue := q }
        (get_next_slot_after cfg (roll_if_capped cfg db slot)) (n + 1)

/-- The SELECT of schedule_approved_tweets: approved rows with null
scheduled_at, ordered by creation time ascending (stable for ties). -/
def approved_pending (db : DB) : List QueueEntry :=
  List.insertionSort (fun a b => dtLe a.created_at b.created_at = true)
    (db.queue.filter fun e => e.status == "approved" && e.scheduled_at == none)

/-- TweetScheduler.schedule_approved_tweets: fetch the pending approved
entries, seed the cursor with the next available slot, and run the
assignment loop; returns the new store and the count of newly scheduled
entries (none when the run aborted on the storage constraint). -/
def schedule_approved_tweets (cfg : SchedulerConfig) (now : DateTime) (db : DB) :
    DB × Option Nat :=
  schedule_loop cfg now (approved_pending db) db (get_next_available_slot cfg db now) 0

/-- TweetScheduler.mark_as_posted: unguarded UPDATE of the status to
posted, then fetch of the candidate id (False when the row is missing),
then INSERT of one row into tweets_publicados. -/
def mark_as_posted (now : DateTime) (db : DB) (queue_id : Nat)
    (tweet_id : Option String) (response : Option String) : DB × Option Bool :=
  match applyQueueUpdate db.queue (fun e => e.id == queue_id)
      (fun e => { e with status := "posted", updated_at := now }) with
  | .error _ => (db, none)
  | .ok (q, _) =>
    let db1 : DB := { db with queue := q }
    match q.find? (fun e => e.id == queue_id) with
    | none => (db1, some false)
    | some item =>
      ({ db1 with published := db1.published ++
          [{ candidate_id := item.candidate_id, tweet_id := tweet_id,
             posted_at := now, platform_response := response }] },
       some true)

/-- TweetScheduler.mark_as_failed: unguarded UPDATE of the status to
failed, then an audit row in the logs table; returns True whether or not
any row matched. -/
def mark_as_failed (now : DateTime) (db : DB) (queue_id : Nat) (error : String) :
    DB × Option Bool :=
  match applyQueueUpdate db.queue (fun e => e.id == queue_id)
      (fun e => { e with status := "failed", updated_at := now }) with
  | .error _ => (db, none)
  | .ok (q, _) =>
    ({ db with
        queue := q
        logs := db.logs ++
          [{ level := "ERROR"
             message := "Fallo al publicar tweet " ++ Nat.repr queue_id
             context := some error }] },
     some true)

/-- The states of the store reachable through the queue operations of the
Scheduling Engine, from the freshly initialised store. -/
inductive Reach : DB → Prop where
  | init : Reach emptyDB
  | add (db : DB) (cid : Nat) (st : String) (now : DateTime) :
      Reach db → Reach (add_to_queue db cid st now).1
  | approve (db : DB) (now : DateTime) (qid : Nat) :
      Reach db → Reach (approve_tweet now db qid).1
  | skip (db : DB) (now : DateTime) (qid : Nat) :
      Reach db → Reach (skip_tweet now db qid).1
  | schedule (db : DB) (cfg : SchedulerConfig) (now : DateTime) :
      Reach db → Reach (schedule_approved_tweets cfg now db).1
  | post (db : DB) (now : DateTime) (qid : Nat) (tid resp : Option String) :
      Reach db → Reach (mark_as_posted now db qid tid resp).1
  | fail (db : DB) (now : DateTime) (qid : Nat) (err : String) :
      Reach db → Reach (mark_as_failed now db qid err).1

/-- Slot exclusivity (the invariant enforced by idx_unique_slot): no two
distinct queue rows collide in the partial unique index, i.e. at most one
scheduled-or-posted row per non-null scheduled_at value. -/
def SlotExclusive (q : List QueueEntry) : Prop :=
  q.Pairwise fun a b => sameIdxSlot a b = false

/-- A timestamp lies exactly on one of the two configured daily slots
(second zero, clock time equal to a slot). -/
def AlignedSlotTime (cfg : SchedulerConfig) (t : DateTime) : Prop :=
  t.second = 0 ∧ ((t.hour, t.minute) = cfg.slot0 ∨ (t.hour, t.minute) = cfg.slot1)

/-- Every scheduled-or-posted row sits exactly on a configured slot time
(the shape every state produced by the scheduler itself has). -/
def SlotAligned (cfg : SchedulerConfig) (q : List QueueEntry) : Prop :=
  ∀ e ∈ q, inIdx e = true → ∀ t, e.scheduled_at = some t → AlignedSlotTime cfg t

/-- The daily cap holds: no calendar day carries more than cap
scheduled-or-posted rows. -/
def CapOK (cap : Nat) (q : List QueueEntry) : Prop :=
  ∀ d, count_on_day q d ≤ cap

/-- The storage layer rejects any queue UPDATE that would put a second
scheduled-or-posted row onto an already taken scheduled_at value, leaving
the table unchanged, exactly as the partial unique index does. -/
def StorageRejectsDoubleBooking (db : DB) : Prop :=
  ∀ pred f x y, x ∈ db.queue → y ∈ db.queue → x ≠ y →
    pred x = true → pred y = false →
    inIdx (f x) = true → inIdx y = true →
    (f x).scheduled_at.isSome = true → (f x).scheduled_at = y.scheduled_at →
    applyQueueUpdate db.queue pred f = Except.error ()

/-- Does the validate result carry one of the two length reasons (the
inclusive 280 effective-length maximum or the 10 raw-character minimum). -/
def IsLengthReason (r : Option (List Char)) : Prop :=
  (∃ n, r = some (tooLongMsg n)) ∨ r = some tooShortMsg

lemma sameIdxSlot_symm {a b : QueueEntry} (h : sameIdxSlot a b = true) :
    sameIdxSlot b a = true := by
  simp only [sameIdxSlot, Bool.and_eq_true, beq_iff_eq] at h ⊢
  obtain ⟨⟨⟨ha, hb⟩, hsome⟩, heq⟩ := h
  exact ⟨⟨⟨hb, ha⟩, heq ▸ hsome⟩, heq.symm⟩

lemma slotEx_map_of_conflict_free {pred : QueueEntry → Bool} {f : QueueEntry → QueueEntry}
    {q : List QueueEntry} (hc : updConflict pred f q = false) (h : SlotExclusive q) :
    SlotExclusive (q.map (applyIf pred f)) := by
  induction q with
  | nil => simp [SlotExclusive]
  | cons e rest ih =>
    rw [updConflict, Bool.or_eq_false_iff] at hc
    obtain ⟨h1, h2⟩ := hc
    rw [List.any_eq_false] at h1
    rw [SlotExclusive, List.pairwise_cons] at h
    rw [List.map_cons, SlotExclusive, List.pairwise_cons]
    constructor
    · intro b hb
      rw [List.mem_map] at hb
      obtain ⟨x, hx, rfl⟩ := hb
      by_cases hpe : pred e = true
      · have := h1 x hx
        simp only [hpe, Bool.true_or, Bool.true_and, Bool.not_eq_true] at this
        exact this
      · by_cases hpx : pred x = true
        · have := h1 x hx
          simp only [hpx, Bool.or_true, Bool.true_and, Bool.not_eq_true] at this
          exact this
        · have he2 : pred e = false := by simpa using hpe
          have hx3 : pred x = false := by simpa using hpx
          have hge : applyIf pred f e = e := by simp [applyIf, he2]
          have hgx : applyIf pred f x = x := by simp [applyIf, hx3]
          rw [hge, hgx]
          exact h.1 x hx
    · exact ih h2 h.2

lemma updConflict_of_pair {pred : QueueEntry → Bool} {f : QueueEntry → QueueEntry}
    {q : List QueueEntry} {x y : QueueEntry}
    (hx : x ∈ q) (hy : y ∈ q) (hne : x ≠ y) (hp : (pred x || pred y) = true)
    (hs : sameIdxSlot (applyIf pred f x) (applyIf pred f y) = true) :
    updConflict pred f q = true := by
  induction q with
  | nil => cases hx
  | cons e rest ih =>
    rw [updConflict, Bool.or_eq_true]
    rcases List.mem_cons.mp hx with rfl | hx2
    · left
      rw [List.any_eq_true]
      have hy2 : y ∈ rest := by
        rcases List.mem_cons.mp hy with h | h
        · exact absurd h.symm hne
        · exact h
      exact ⟨y, hy2, by simp [hp, hs]⟩
    · rcases List.mem_cons.mp hy with rfl | hy2
      · left
        rw [List.any_eq_true]
        refine ⟨x, hx2, ?_⟩
        have hp2 : (pred y || pred x) = true := by rw [Bool.or_comm]; exact hp
        have hs2 := sameIdxSlot_symm hs
        simp [hp2, hs2]
      · exact Or.inr (ih hx2 hy2)

lemma updConflict_false_of_no_match {pred : QueueEntry → Bool} {f : QueueEntry → QueueEntry}
    {q : List QueueEntry} (h : ∀ x ∈ q, pred x = false) :
    updConflict pred f q = false := by
  induction q with
  | nil => rfl
  | cons e rest ih =>
    rw [updConflict, Bool.or_eq_false_iff]
    refine ⟨?_, ih fun x hx => h x (List.mem_cons_of_mem _ hx)⟩
    rw [List.any_eq_false]
    intro x hx
    simp [h e (List.mem_cons_self _ _), h x (List.mem_cons_of_mem _ hx)]

lemma map_applyIf_of_no_match {pred : QueueEntry → Bool} {f : QueueEntry → QueueEntry}
    {q : List QueueEntry} (h : ∀ x ∈ q, pred x = false) :
    q.map (applyIf pred f) = q := by
  have : ∀ x ∈ q, applyIf pred f x = id x := by
    intro x hx
    simp [applyIf, h x hx]
  rw [List.map_congr_left this, List.map_id]

lemma updConflict_false_of_unindexed {pred : QueueEntry → Bool} {f : QueueEntry → QueueEntry}
    {q : List QueueEntry} (h : ∀ x, pred x = true → inIdx (f x) = false) :
    updConflict pred f q = false := by
  induction q with
  | nil => rfl
  | cons e rest ih =>
    rw [updConflict, Bool.or_eq_false_iff]
    refine ⟨?_, ih⟩
    rw [List.any_eq_false]
    intro x hx
    by_cases hpe : pred e = true
    · have : inIdx (applyIf pred f e) = false := by simp [applyIf, hpe, h e hpe]
      simp [sameIdxSlot, this]
    · by_cases hpx : pred x = true
      · have : inIdx (applyIf pred f x) = false := by simp [applyIf, hpx, h x hpx]
        simp [sameIdxSlot, this]
      · have he2 : pred e = false := by simpa using hpe
        have hx3 : pred x = false := by simpa using hpx
        simp [he2, hx3]

lemma applyQueueUpdate_ok_slotEx {pred : QueueEntry → Bool} {f : QueueEntry → QueueEntry}
    {q q2 : List QueueEntry} {cnt : Nat}
    (h : applyQueueUpdate q pred f = Except.ok (q2, cnt)) (hex : SlotExclusive q) :
    SlotExclusive q2 := by
  rw [applyQueueUpdate] at h
  by_cases hc : updConflict pred f q = true
  · rw [if_pos hc] at h
    cases h
  · rw [if_neg hc] at h
    cases h
    exact slotEx_map_of_conflict_free (by simpa using hc) hex

lemma slotEx_add_to_queue (db : DB) (cid : Nat) (st : String) (now : DateTime)
    (hex : SlotExclusive db.queue) :
    SlotExclusive ((add_to_queue db cid st now).1).queue := by
  rw [SlotExclusive, add_to_queue, List.pairwise_append]
  refine ⟨hex, List.pairwise_singleton _ _, ?_⟩
  intro a _ b hb
  rw [List.mem_singleton] at hb
  subst hb
  cases ha : a.scheduled_at <;> simp [sameIdxSlot, ha]

lemma slotEx_approve_tweet (now : DateTime) (db : DB) (qid : Nat)
    (hex : SlotExclusive db.queue) :
    SlotExclusive ((approve_tweet now db qid).1).queue := by
  rw [approve_tweet]
  cases h : applyQueueUpdate db.queue (fun e => e.id == qid)
      (fun e => { e with status := "approved", updated_at := now }) with
  | error e => exact hex
  | ok p =>
    obtain ⟨q2, cnt⟩ := p
    exact applyQueueUpdate_ok_slotEx h hex

lemma slotEx_skip_tweet (now : DateTime) (db : DB) (qid : Nat)
    (hex : SlotExclusive db.queue) :
    SlotExclusive ((skip_tweet now db qid).1).queue := by
  rw [skip_tweet]
  cases h : applyQueueUpdate db.queue (fun e => e.id == qid)
      (fun e => { e with status := "skipped", updated_at := now }) with
  | error e => exact hex
  | ok p =>
    obtain ⟨q2, cnt⟩ := p
    exact applyQueueUpdate_ok_slotEx h hex

lemma slotEx_mark_as_posted (now : DateTime) (db : DB) (qid : Nat)
    (tid resp : Option String) (hex : SlotExclusive db.queue) :
    SlotExclusive ((mark_as_posted now db qid tid resp).1).queue := by
  rw [mark_as_posted]
  cases h : applyQueueUpdate db.queue (fun e => e.id == qid)
      (fun e => { e with status := "posted", updated_at := now }) with
  | error e => exact hex
  | ok p =>
    obtain ⟨q2, cnt⟩ := p
    have h2 := applyQueueUpdate_ok_slotEx h hex
    cases hf : q2.find? (fun e => e.id == qid) with
    | none => simp only [hf]; exact h2
    | some item => simp only [hf]; exact h2

lemma slotEx_mark_as_failed (now : DateTime) (db : DB) (qid : Nat) (err : String)
    (hex : SlotExclusive db.queue) :
    SlotExclusive ((mark_as_failed now db qid err).1).queue := by
  rw [mark_as_failed]
  cases h : applyQueueUpdate db.queue (fun e => e.id == qid)
      (fun e => { e with status := "failed", updated_at := now }) with
  | error e => exact hex
  | ok p =>
    obtain ⟨q2, cnt⟩ := p
    exact applyQueueUpdate_ok_slotEx h hex

lemma slotEx_schedule_loop (cfg : SchedulerConfig) (now : DateTime) :
    ∀ (rem : List QueueEntry) (db : DB) (slot : DateTime) (n : Nat),
    SlotExclusive db.queue →
    SlotExclusive ((schedule_loop cfg now rem db slot n).1).queue := by
  intro rem
  induction rem with
  | nil => intro db slot n h; exact h
  | cons t rest ih =>
    intro db slot n h
    rw [schedule_loop]
    cases happ : applyQueueUpdate db.queue (fun e => e.id == t.id)
        (sched_update now (roll_if_capped cfg db slot)) with
    | error e => exact h
    | ok p =>
      obtain ⟨q2, cnt⟩ := p
      exact ih _ _ _ (applyQueueUpdate_ok_slotEx happ h)

lemma slotEx_schedule_approved (cfg : SchedulerConfig) (now : DateTime) (db : DB)
    (hex : SlotExclusive db.queue) :
    SlotExclusive ((schedule_approved_tweets cfg now db).1).queue := by
  rw [schedule_approved_tweets]
  exact slotEx_schedule_loop cfg now _ db _ 0 hex

lemma slotEx_of_reach {db : DB} (h : Reach db) : SlotExclusive db.queue := by
  induction h with
  | init => exact List.Pairwise.nil
  | add db cid st now _ ih => exact slotEx_add_to_queue db cid st now ih
  | approve db now qid _ ih => exact slotEx_approve_tweet now db qid ih
  | skip db now qid _ ih => exact slotEx_skip_tweet now db qid ih
  | schedule db cfg now _ ih => exact slotEx_schedule_approved cfg now db ih
  | post db now qid tid resp _ ih => exact slotEx_mark_as_posted now db qid tid resp ih
  | fail db now qid err _ ih => exact slotEx_mark_as_failed now db qid err ih

lemma storage_rejects_double_booking (db : DB) : StorageRejectsDoubleBooking db := by
  intro pred f x y hx hy hne hpx hpy hidx hidy hsome heq
  have hax : applyIf pred f x = f x := by simp [applyIf, hpx]
  have hay : applyIf pred f y = y := by simp [applyIf, hpy]
  have hsy : y.scheduled_at.isSome = true := by rw [← heq]; exact hsome
  have hs : sameIdxSlot (applyIf pred f x) (applyIf pred f y) = true := by
    rw [hax, hay]
    simp [sameIdxSlot, hidx, hidy, hsome, heq, hsy]
  have hc : updConflict pred f db.queue = true :=
    updConflict_of_pair hx hy hne (by simp [hpx]) hs
  rw [applyQueueUpdate, if_pos hc]

/-- C1.  Slot exclusivity: every state reachable through the queue
operations keeps at most one scheduled-or-posted row per scheduled_at
value; in particular a run of schedule_approved_tweets from a reachable
state leaves no two such rows on the same timestamp (so a single run never
assigns the same scheduled_at twice); and any queue UPDATE that would put a
second scheduled-or-posted row onto an already taken timestamp is rejected
by the storage layer (the partial unique index idx_unique_slot), leaving
the store unchanged rather than double-booking. -/
theorem claim_C1 (db : DB) (h : Reach db) :
    SlotExclusive db.queue ∧
    (∀ cfg now, SlotExclusive ((schedule_approved_tweets cfg now db).1).queue) ∧
    StorageRejectsDoubleBooking db :=
  ⟨slotEx_of_reach h,
   fun cfg now => slotEx_schedule_approved cfg now db (slotEx_of_reach h),
   storage_rejects_double_booking db⟩

theorem claim_C1_witness :
    SlotExclusive ((add_to_queue emptyDB 1 "drafted" ⟨0, 7, 0, 0⟩).1).queue ∧
    (∀ cfg now,
      SlotExclusive ((schedule_approved_tweets cfg now
        (add_to_queue emptyDB 1 "drafted" ⟨0, 7, 0, 0⟩).1).1).queue) ∧
    StorageRejectsDoubleBooking (add_to_queue emptyDB 1 "drafted" ⟨0, 7, 0, 0⟩).1 :=
  claim_C1 _ (Reach.add _ 1 "drafted" ⟨0, 7, 0, 0⟩ Reach.init)

set_option maxRecDepth 1000000

lemma subUrlGo_id_of_no_url (repl : List Char) :
    ∀ t : List Char, hasUrlToken t = false → subUrlGo repl false t = t := by
  intro t
  induction t with
  | nil => intro _; rfl
  | cons c cs ih =>
    intro h
    rw [hasUrlToken, List.tails_cons, List.any_cons, Bool.or_eq_false_iff] at h
    obtain ⟨h1, h2⟩ := h
    rw [subUrlGo, if_neg (by rw [h1]; exact Bool.false_ne_true)]
    rw [ih h2]

/-- C10.  Without any URL-pattern match (http or www. followed by a
non-space character) the effective length of count_chars is exactly the raw
character count: the 23-character substitution only affects texts carrying
such URL tokens. -/
theorem claim_C10 (t : List Char) (h : hasUrlToken t = false) :
    count_chars t = t.length := by
  rw [count_chars, subUrl, subUrlGo_id_of_no_url _ t h]

theorem claim_C10_witness :
    hasUrlToken "Visita www. con espacio".toList = false ∧
    count_chars "Visita www. con espacio".toList = "Visita www. con espacio".toList.length :=
  ⟨by decide, claim_C10 _ (by decide)⟩

/-- C3.  Exact-duplicate rejection: a text whose normalized form equals the
normalized form of a stored candidate (equivalently, since the content hash
is a function of the normalized text, whose hash matches that stored row)
is rejected by validate with the duplicate reason. -/
theorem claim_C3 (voice : List (List Char)) (db : DB) (T : List Char) (c : Candidate)
    (hc : c ∈ db.candidates)
    (hwf : c.content_hash = hash_text c.content)
    (hn : normalize_text T = normalize_text c.content) :
    is_duplicate db T (mkRat 17 20) = true ∧
    validate voice db T = (false, some dupMsg) := by
  have hmatch : (c.content_hash == hash_text T) = true := by
    rw [beq_iff_eq, hwf, hash_text, hash_text, hn]
  have hdup : is_duplicate db T (mkRat 17 20) = true := by
    rw [is_duplicate]
    cases hfind : db.candidates.find? (fun c2 => c2.content_hash == hash_text T) with
    | some c2 => rfl
    | none => exact absurd hmatch (by simpa using List.find?_eq_none.mp hfind c hc)
  exact ⟨hdup, by rw [validate, if_pos hdup]⟩

theorem claim_C3_witness :
    ({ id := 1, content := "Hola mundo cruel y grande hoy".toList,
       content_hash := hash_text "Hola mundo cruel y grande hoy".toList,
       tweet_type := "promo".toList, created_at := ⟨0, 1, 0, 0⟩ } : Candidate) ∈
      ({ emptyDB with candidates :=
        [{ id := 1, content := "Hola mundo cruel y grande hoy".toList,
           content_hash := hash_text "Hola mundo cruel y grande hoy".toList,
           tweet_type := "promo".toList, created_at := ⟨0, 1, 0, 0⟩ }] } : DB).candidates ∧
    validate [] { emptyDB with candidates :=
        [{ id := 1, content := "Hola mundo cruel y grande hoy".toList,
           content_hash := hash_text "Hola mundo cruel y grande hoy".toList,
           tweet_type := "promo".toList, created_at := ⟨0, 1, 0, 0⟩ }] }
      "Hola, mundo cruel y grande HOY!".toList = (false, some dupMsg) :=
  ⟨List.mem_singleton.mpr rfl,
   (claim_C3 [] _ _ _ (List.mem_singleton.mpr rfl) rfl (by decide)).2⟩

lemma tooLongMsg_ne_dupMsg (n : Nat) : tooLongMsg n ≠ dupMsg := by
  intro h
  have h1 : ("Excede longitud máxima (280 caracteres): ".toList)
      = 'E' :: "xcede longitud máxima (280 caracteres): ".toList := by decide
  have h2 : dupMsg = 'T' :: "weet duplicado o muy similar a uno existente".toList := by decide
  rw [tooLongMsg, h1, h2, List.cons_append] at h
  injection h with h3 h4
  exact absurd h3 (by decide)

/-- C4.  Fuzzy-duplicate threshold: a new text whose normalized form
reaches similarity 0.85 with a stored candidate inside the 100-most-recent
window is rejected by validate as a duplicate; and when no stored row
matches the content hash and no candidate in the window reaches 0.85, the
duplicate check passes, so validate never reports the duplicate reason. -/
theorem claim_C4 (voice : List (List Char)) (db : DB) (T2 : List Char) :
    (∀ c ∈ recent_tweets db,
      mkRat 17 20 ≤ similarity (normalize_text T2) (normalize_text c.content) →
      is_duplicate db T2 (mkRat 17 20) = true ∧
      validate voice db T2 = (false, some dupMsg)) ∧
    ((∀ c ∈ db.candidates, c.content_hash ≠ hash_text T2) →
     (∀ c ∈ recent_tweets db,
       similarity (normalize_text T2) (normalize_text c.content) < mkRat 17 20) →
     is_duplicate db T2 (mkRat 17 20) = false ∧
     (validate voice db T2).2 ≠ some dupMsg) := by
  constructor
  · intro c hcrec hsim
    have hdup : is_duplicate db T2 (mkRat 17 20) = true := by
      rw [is_duplicate]
      cases hfind : db.candidates.find? (fun c2 => c2.content_hash == hash_text T2) with
      | some c2 => rfl
      | none =>
        simp only
        rw [List.any_eq_true]
        exact ⟨c, hcrec, decide_eq_true hsim⟩
    exact ⟨hdup, by rw [validate, if_pos hdup]⟩
  · intro hh hf
    have hfind : db.candidates.find? (fun c2 => c2.content_hash == hash_text T2) = none := by
      rw [List.find?_eq_none]
      intro c2 hc2
      simp only [beq_iff_eq]
      exact fun heq => hh c2 hc2 heq
    have hany : ((recent_tweets db).any fun c =>
        decide (mkRat 17 20 ≤ similarity (normalize_text T2) (normalize_text c.content))) = false := by
      rw [List.any_eq_false]
      intro c2 h2
      simp only [decide_eq_true_eq]
      exact not_le.mpr (hf c2 h2)
    have hdupf : is_duplicate db T2 (mkRat 17 20) = false := by
      rw [is_duplicate, hfind]
      exact hany
    refine ⟨hdupf, ?_⟩
    rw [validate, if_neg (by rw [hdupf]; exact Bool.false_ne_true)]
    intro h
    split at h
    · simp at h
      exact absurd h (by decide)
    · split at h
      · simp at h
        exact absurd h (by decide)
      · split at h
        · simp at h
          exact absurd h (by decide)
        · by_cases h280 : count_chars T2 > 280
          · rw [show (let actual_length := count_chars T2;
                if actual_length > 280 then (false, some (tooLongMsg actual_length))
                else if T2.length < 10 then (false, some tooShortMsg)
                else (true, none)) =
                (false, some (tooLongMsg (count_chars T2))) from by
              simp only [if_pos h280]] at h
            simp at h
            exact tooLongMsg_ne_dupMsg _ h
          · by_cases hlen : T2.length < 10
            · rw [show (let actual_length := count_chars T2;
                  if actual_length > 280 then (false, some (tooLongMsg actual_length))
                  else if T2.length < 10 then (false, some tooShortMsg)
                  else (true, none)) =
                  (false, some tooShortMsg) from by
                simp only [if_neg h280, if_pos hlen]] at h
              simp at h
              exact absurd h (by decide)
            · rw [show (let actual_length := count_chars T2;
                  if actual_length > 280 then (false, some (tooLongMsg actual_length))
                  else if T2.length < 10 then (false, some tooShortMsg)
                  else (true, none)) =
                  ((true, none) : Bool × Option (List Char)) from by
                simp only [if_neg h280, if_neg hlen]] at h
              exact Option.noConfusion h

theorem claim_C4_witness :
    mkRat 17 20 ≤ similarity (normalize_text "Hola mundo cruel y grande ayer".toList)
      (normalize_text "Hola mundo cruel y grande hoy".toList) ∧
    validate [] { emptyDB with candidates :=
        [{ id := 1, content := "Hola mundo cruel y grande hoy".toList,
           content_hash := hash_text "Hola mundo cruel y grande hoy".toList,
           tweet_type := "promo".toList, created_at := ⟨0, 1, 0, 0⟩ }] }
      "Hola mundo cruel y grande ayer".toList = (false, some dupMsg) ∧
    (validate [] { emptyDB with candidates :=
        [{ id := 1, content := "Hola mundo cruel y grande hoy".toList,
           content_hash := hash_text "Hola mundo cruel y grande hoy".toList,
           tweet_type := "promo".toList, created_at := ⟨0, 1, 0, 0⟩ }] }
      "Texto totalmente distinto aqui".toList).2 ≠ some dupMsg :=
  ⟨by decide,
   ((claim_C4 [] _ _).1
     { id := 1, content := "Hola mundo cruel y grande hoy".toList,
       content_hash := hash_text "Hola mundo cruel y grande hoy".toList,
       tweet_type := "promo".toList, created_at := ⟨0, 1, 0, 0⟩ }
     (by decide) (by decide)).2,
   ((claim_C4 [] _ _).2 (by decide) (by decide)).2⟩

/-- C5.  Length policy: when the four content checks pass, validate fails
with a length reason exactly when the effective length (URLs counted as a
fixed 23 characters) exceeds 280 or the raw length is under 10; effective
length exactly 280 with raw length at least 10 is accepted, so the upper
boundary is inclusive. -/
theorem claim_C5 (voice : List (List Char)) (db : DB) (T : List Char)
    (hd : is_duplicate db T (mkRat 17 20) = false)
    (hf : contains_forbidden_words voice T = false)
    (ha : is_aggressive T = false)
    (hm : is_misleading T = false) :
    (((validate voice db T).1 = false ∧ IsLengthReason (validate voice db T).2) ↔
      (count_chars T > 280 ∨ T.length < 10)) ∧
    (count_chars T = 280 → 10 ≤ T.length → validate voice db T = (true, none)) := by
  have hv : validate voice db T =
      (if count_chars T > 280 then (false, some (tooLongMsg (count_chars T)))
       else if T.length < 10 then (false, some tooShortMsg) else (true, none)) := by
    rw [validate, if_neg (by rw [hd]; exact Bool.false_ne_true),
        if_neg (by rw [hf]; exact Bool.false_ne_true),
        if_neg (by rw [ha]; exact Bool.false_ne_true),
        if_neg (by rw [hm]; exact Bool.false_ne_true)]
  rw [hv]
  constructor
  · by_cases h280 : count_chars T > 280
    · rw [if_pos h280]
      exact ⟨fun _ => Or.inl h280, fun _ => ⟨rfl, Or.inl ⟨_, rfl⟩⟩⟩
    · rw [if_neg h280]
      by_cases hlen : T.length < 10
      · rw [if_pos hlen]
        exact ⟨fun _ => Or.inr hlen, fun _ => ⟨rfl, Or.inr rfl⟩⟩
      · rw [if_neg hlen]
        constructor
        · intro hcontra
          exact absurd hcontra.1 (by decide)
        · intro h
          rcases h with h | h
          · exact absurd h h280
          · exact absurd h hlen
  · intro h280eq hlen10
    rw [if_neg (by omega), if_neg (by omega)]

theorem claim_C5_witness :
    (is_duplicate emptyDB "Hola mundo tal cual".toList (mkRat 17 20) = false ∧
     contains_forbidden_words [] "Hola mundo tal cual".toList = false ∧
     is_aggressive "Hola mundo tal cual".toList = false ∧
     is_misleading "Hola mundo tal cual".toList = false) ∧
    ((((validate [] emptyDB "Hola mundo tal cual".toList).1 = false ∧
        IsLengthReason (validate [] emptyDB "Hola mundo tal cual".toList).2) ↔
      (count_chars "Hola mundo tal cual".toList > 280 ∨
        "Hola mundo tal cual".toList.length < 10)) ∧
     (count_chars "Hola mundo tal cual".toList = 280 →
      10 ≤ "Hola mundo tal cual".toList.length →
      validate [] emptyDB "Hola mundo tal cual".toList = (true, none))) :=
  ⟨⟨by decide, by decide, by decide, by decide⟩,
   claim_C5 [] emptyDB _ (by decide) (by decide) (by decide) (by decide)⟩

lemma schedule_loop_keeps_nonmatching (cfg : SchedulerConfig) (now : DateTime) :
    ∀ (rem : List QueueEntry) (db : DB) (slot : DateTime) (n : Nat) (e : QueueEntry),
    e ∈ db.queue →
    (∀ t ∈ rem, (e.id == t.id) = false) →
    e ∈ ((schedule_loop cfg now rem db slot n).1).queue := by
  intro rem
  induction rem with
  | nil => intro db slot n e he _; exact he
  | cons t rest ih =>
    intro db slot n e he hne
    rw [schedule_loop]
    cases happ : applyQueueUpdate db.queue (fun x => x.id == t.id)
        (sched_update now (roll_if_capped cfg db slot)) with
    | error err => exact he
    | ok p =>
      obtain ⟨q2, cnt⟩ := p
      have hq2 : q2 = db.queue.map (applyIf (fun x => x.id == t.id)
          (sched_update now (roll_if_capped cfg db slot))) := by
        rw [applyQueueUpdate] at happ
        by_cases hc : updConflict (fun x => x.id == t.id)
            (sched_update now (roll_if_capped cfg db slot)) db.queue = true
        · rw [if_pos hc] at happ; cases happ
        · rw [if_neg hc] at happ
          cases happ
          rfl
      have hee : applyIf (fun x => x.id == t.id)
          (sched_update now (roll_if_capped cfg db slot)) e = e := by
        simp [applyIf, hne t (List.mem_cons_self _ _)]
      refine ih _ _ _ e ?_ fun t2 ht2 => hne t2 (List.mem_cons_of_mem _ ht2)
      show e ∈ q2
      rw [hq2]
      rw [← hee]
      exact List.mem_map_of_mem _ he

lemma approved_pending_mem {db : DB} {t : QueueEntry} (h : t ∈ approved_pending db) :
    t ∈ db.queue ∧ t.status = "approved" ∧ t.scheduled_at = none := by
  rw [approved_pending, List.mem_insertionSort, List.mem_filter] at h
  obtain ⟨hmem, hcond⟩ := h
  rw [Bool.and_eq_true, beq_iff_eq, beq_iff_eq] at hcond
  exact ⟨hmem, hcond.1, hcond.2⟩

/-- C7 counterexample.  The claim says posted is terminal, but approve_tweet
on a posted entry rewrites its status to approved. -/
theorem claim_C7_counterexample :
    ((approve_tweet ⟨2, 0, 0, 0⟩
        { emptyDB with queue := [{ id := 1
                                   candidate_id := 1
                                   status := "posted"
                                   scheduled_at := some ⟨1, 9, 0, 0⟩
                                   created_at := ⟨0, 1, 0, 0⟩
                                   updated_at := ⟨0, 1, 0, 0⟩ }] } 1).1).queue.map
        (fun e => e.status)
      = ["approved"] ∧
    ("approved" : String) ≠ "posted" := by decide

/-- C7 amended.  The engine does not guard status transitions:
schedule_approved_tweets never touches entries in a terminal status
(posted, failed, skipped), but approve_tweet rewrites the status of any
existing entry, including terminal ones, to approved, so terminal statuses
are not enforced by the engine. -/
theorem claim_C7_amended :
    (∀ (cfg : SchedulerConfig) (now : DateTime) (db : DB) (e : QueueEntry),
      (db.queue.map fun x => x.id).Nodup →
      e ∈ db.queue →
      (e.status = "posted" ∨ e.status = "failed" ∨ e.status = "skipped") →
      e ∈ ((schedule_approved_tweets cfg now db).1).queue) ∧
    (∀ (now : DateTime) (db : DB) (qid : Nat) (e : QueueEntry),
      e ∈ db.queue → e.id = qid →
      ∃ e2 ∈ ((approve_tweet now db qid).1).queue, e2.id = qid ∧ e2.status = "approved") := by
  constructor
  · intro cfg now db e hnodup he hterm
    rw [schedule_approved_tweets]
    refine schedule_loop_keeps_nonmatching cfg now _ db _ 0 e he ?_
    intro t ht
    obtain ⟨htmem, htstatus, _⟩ := approved_pending_mem ht
    by_contra hbe
    have hbe2 : (e.id == t.id) = true := by
      cases hbeq : (e.id == t.id) with
      | true => rfl
      | false => exact absurd hbeq hbe
    have heq : e = t :=
      List.inj_on_of_nodup_map hnodup he htmem (beq_iff_eq.mp hbe2)
    rw [heq, htstatus] at hterm
    rcases hterm with h | h | h <;> exact absurd h (by decide)
  · intro now db qid e he heid
    have hcf : updConflict (fun x => x.id == qid)
        (fun x => { x with status := "approved", updated_at := now }) db.queue = false := by
      apply updConflict_false_of_unindexed
      intro x _
      simp [inIdx]
    rw [approve_tweet]
    cases happ : applyQueueUpdate db.queue (fun x => x.id == qid)
        (fun x => { x with status := "approved", updated_at := now }) with
    | error err =>
      rw [applyQueueUpdate, if_neg (by rw [hcf]; exact Bool.false_ne_true)] at happ
      cases happ
    | ok p =>
      obtain ⟨q2, cnt⟩ := p
      have hq2 : q2 = db.queue.map (applyIf (fun x => x.id == qid)
          (fun x => { x with status := "approved", updated_at := now })) := by
        rw [applyQueueUpdate, if_neg (by rw [hcf]; exact Bool.false_ne_true)] at happ
        cases happ
        rfl
      refine ⟨{ e with status := "approved", updated_at := now }, ?_, heid, rfl⟩
      show _ ∈ q2
      rw [hq2]
      have : applyIf (fun x => x.id == qid)
          (fun x => { x with status := "approved", updated_at := now }) e
          = { e with status := "approved", updated_at := now } := by
        simp [applyIf, heid]
      rw [← this]
      exact List.mem_map_of_mem _ he

theorem claim_C7_witness :
    ({ id := 1
       candidate_id := 1
       status := "posted"
       scheduled_at := some ⟨1, 9, 0, 0⟩
       created_at := ⟨0, 1, 0, 0⟩
       updated_at := ⟨0, 1, 0, 0⟩ } : QueueEntry) ∈
      ((schedule_approved_tweets (mkSchedulerConfig 2 (9, 0) (21, 0)) ⟨0, 8, 0, 0⟩
        { emptyDB with queue := [{ id := 1
                                   candidate_id := 1
                                   status := "posted"
                                   scheduled_at := some ⟨1, 9, 0, 0⟩
                                   created_at := ⟨0, 1, 0, 0⟩
                                   updated_at := ⟨0, 1, 0, 0⟩ }] }).1).queue ∧
    (∃ e2 ∈ ((approve_tweet ⟨2, 0, 0, 0⟩
        { emptyDB with queue := [{ id := 1
                                   candidate_id := 1
                                   status := "posted"
                                   scheduled_at := some ⟨1, 9, 0, 0⟩
                                   created_at := ⟨0, 1, 0, 0⟩
                                   updated_at := ⟨0, 1, 0, 0⟩ }] } 1).1).queue,
      e2.id = 1 ∧ e2.status = "approved") :=
  ⟨claim_C7_amended.1 _ _ _ _ (by decide) (by decide) (Or.inl rfl),
   claim_C7_amended.2 ⟨2, 0, 0, 0⟩ _ 1
     { id := 1
       candidate_id := 1
       status := "posted"
       scheduled_at := some ⟨1, 9, 0, 0⟩
       created_at := ⟨0, 1, 0, 0⟩
       updated_at := ⟨0, 1, 0, 0⟩ } (by decide) rfl⟩

/-- C8 counterexample.  The claim says every operation on a missing queueId
returns false and leaves the store unchanged, but mark_as_failed on a
missing id returns True and appends a log row. -/
theorem claim_C8_counterexample :
    (mark_as_failed ⟨0, 1, 0, 0⟩ emptyDB 7 "boom").2 = some true ∧
    (mark_as_failed ⟨0, 1, 0, 0⟩ emptyDB 7 "boom").1 ≠ emptyDB := by decide

/-- C8 amended.  On a queueId with no row, approve_tweet, skip_tweet and
mark_as_posted return False and leave the store unchanged (and raise no
exception), while mark_as_failed returns True and appends one audit log
row, leaving the queue itself unchanged. -/
theorem claim_C8_amended (now : DateTime) (db : DB) (qid : Nat)
    (tid resp : Option String) (err : String)
    (h : ∀ e ∈ db.queue, e.id ≠ qid) :
    approve_tweet now db qid = (db, some false) ∧
    skip_tweet now db qid = (db, some false) ∧
    mark_as_posted now db qid tid resp = (db, some false) ∧
    mark_as_failed now db qid err =
      ({ db with logs := db.logs ++
          [{ level := "ERROR"
             message := "Fallo al publicar tweet " ++ Nat.repr qid
             context := some err }] },
       some true) := by
  have hpred : ∀ x ∈ db.queue, (x.id == qid) = false := by
    intro x hx
    rw [beq_eq_false_iff_ne]
    exact h x hx
  have hok : ∀ f : QueueEntry → QueueEntry,
      applyQueueUpdate db.queue (fun x => x.id == qid) f = Except.ok (db.queue, 0) := by
    intro f
    rw [applyQueueUpdate,
      if_neg (by rw [updConflict_false_of_no_match hpred]; exact Bool.false_ne_true)]
    rw [map_applyIf_of_no_match hpred, List.countP_eq_zero.mpr fun a ha => by
      rw [hpred a ha]; exact Bool.false_ne_true]
  have hfind : db.queue.find? (fun x => x.id == qid) = none :=
    List.find?_eq_none.mpr fun x hx => by rw [hpred x hx]; exact Bool.false_ne_true
  refine ⟨?_, ?_, ?_, ?_⟩
  · rw [approve_tweet, hok]
    rfl
  · rw [skip_tweet, hok]
    rfl
  · rw [mark_as_posted, hok]
    simp only [hfind]
  · rw [mark_as_failed, hok]

theorem claim_C8_witness :
    (∀ e ∈ (emptyDB : DB).queue, e.id ≠ (7 : Nat)) ∧
    (approve_tweet ⟨0, 1, 0, 0⟩ emptyDB 7 = (emptyDB, some false) ∧
     skip_tweet ⟨0, 1, 0, 0⟩ emptyDB 7 = (emptyDB, some false) ∧
     mark_as_posted ⟨0, 1, 0, 0⟩ emptyDB 7 none none = (emptyDB, some false) ∧
     mark_as_failed ⟨0, 1, 0, 0⟩ emptyDB 7 "boom" =
       ({ emptyDB with logs := emptyDB.logs ++
           [{ level := "ERROR"
              message := "Fallo al publicar tweet " ++ Nat.repr 7
              context := some "boom" }] },
        some true)) :=
  ⟨by decide, claim_C8_amended ⟨0, 1, 0, 0⟩ emptyDB 7 none none "boom" (by decide)⟩

/-- C6 counterexample.  Two mark_as_posted calls on the same queue id leave
one posted entry with two rows in tweets_publicados. -/
theorem claim_C6_counterexample :
    (((mark_as_posted ⟨1, 9, 5, 0⟩
        (mark_as_posted ⟨1, 9, 4, 0⟩
          { emptyDB with queue := [{ id := 1
                                     candidate_id := 7
                                     status := "scheduled"
                                     scheduled_at := some ⟨1, 9, 0, 0⟩
                                     created_at := ⟨0, 1, 0, 0⟩
                                     updated_at := ⟨0, 1, 0, 0⟩ }] } 1 none none).1
        1 none none).1).queue.map (fun e => e.status) = ["posted"]) ∧
    (((mark_as_posted ⟨1, 9, 5, 0⟩
        (mark_as_posted ⟨1, 9, 4, 0⟩
          { emptyDB with queue := [{ id := 1
                                     candidate_id := 7
                                     status := "scheduled"
                                     scheduled_at := some ⟨1, 9, 0, 0⟩
                                     created_at := ⟨0, 1, 0, 0⟩
                                     updated_at := ⟨0, 1, 0, 0⟩ }] } 1 none none).1
        1 none none).1).published.map (fun p => p.candidate_id) = [7, 7]) := by decide

lemma updConflict_false_of_safe {pred : QueueEntry → Bool} {f : QueueEntry → QueueEntry}
    {q : List QueueEntry} (hnd : q.Nodup)
    (h : ∀ x ∈ q, ∀ y ∈ q, x ≠ y → (pred x || pred y) = true →
      sameIdxSlot (applyIf pred f x) (applyIf pred f y) = false) :
    updConflict pred f q = false := by
  induction q with
  | nil => rfl
  | cons e rest ih =>
    rw [List.nodup_cons] at hnd
    rw [updConflict, Bool.or_eq_false_iff]
    constructor
    · rw [List.any_eq_false]
      intro x hx
      have hxe : e ≠ x := fun heq => hnd.1 (heq ▸ hx)
      cases hpor : (pred e || pred x) with
      | false => simp
      | true =>
        have := h e (List.mem_cons_self _ _) x (List.mem_cons_of_mem _ hx) hxe hpor
        simp [this]
    · exact ih hnd.2 fun x hx y hy hxy hp =>
        h x (List.mem_cons_of_mem _ hx) y (List.mem_cons_of_mem _ hy) hxy hp

/-- C6 amended.  One successful mark_as_posted call on an existing
scheduled entry (in a store with unique ids satisfying slot exclusivity)
returns True, flips exactly that entry to posted, and appends exactly one
PublishedRecord carrying its candidate id; repeated calls append one row
per call, so a posted entry can accumulate several records (see the
counterexample). -/
theorem claim_C6_amended (now : DateTime) (db : DB) (qid : Nat) (tid resp : Option String)
    (e : QueueEntry) (he : e ∈ db.queue) (heid : e.id = qid)
    (hst : e.status = "scheduled")
    (hex : SlotExclusive db.queue)
    (hnodup : (db.queue.map fun x => x.id).Nodup) :
    (mark_as_posted now db qid tid resp).2 = some true ∧
    ((mark_as_posted now db qid tid resp).1).published =
      db.published ++ [{ candidate_id := e.candidate_id
                         tweet_id := tid
                         posted_at := now
                         platform_response := resp }] ∧
    { e with status := "posted", updated_at := now } ∈
      ((mark_as_posted now db qid tid resp).1).queue := by
  have huniq : ∀ x ∈ db.queue, (x.id == qid) = true → x = e := by
    intro x hx hbx
    exact List.inj_on_of_nodup_map hnodup hx he (by rw [beq_iff_eq.mp hbx, heid])
  have hsymm : Symmetric fun a b : QueueEntry => sameIdxSlot a b = false := by
    intro a b hab
    cases hba : sameIdxSlot b a with
    | false => rfl
    | true => exact absurd (sameIdxSlot_symm hba) (by rw [hab]; exact Bool.false_ne_true)
  have hsafe : updConflict (fun x => x.id == qid)
      (fun x => { x with status := "posted", updated_at := now }) db.queue = false := by
    apply updConflict_false_of_safe (List.Nodup.of_map _ hnodup)
    intro x hx y hy hxy hpor
    by_cases hpx : (x.id == qid) = true
    · have hxe : x = e := huniq x hx hpx
      have hpy : (y.id == qid) = false := by
        cases hpy2 : (y.id == qid) with
        | false => rfl
        | true =>
          have hye : y = e := huniq y hy hpy2
          exact absurd (hxe.trans hye.symm) hxy
      subst hxe
      have h1 : applyIf (fun z => z.id == qid)
          (fun z => { z with status := "posted", updated_at := now }) x
          = { x with status := "posted", updated_at := now } := by simp [applyIf, hpx]
      have h2 : applyIf (fun z => z.id == qid)
          (fun z => { z with status := "posted", updated_at := now }) y = y := by
        simp [applyIf, hpy]
      rw [h1, h2]
      have hxy2 : sameIdxSlot x y = false :=
        (List.Pairwise.forall hsymm hex) hx hy hxy
      calc sameIdxSlot { x with status := "posted", updated_at := now } y
          = sameIdxSlot x y := by simp [sameIdxSlot, inIdx, hst]
        _ = false := hxy2
    · have hpy : (y.id == qid) = true := by
        cases hpy2 : (y.id == qid) with
        | true => rfl
        | false => rw [hpy2] at hpor; exact absurd hpor (by simp [hpx])
      have hye : y = e := huniq y hy hpy
      subst hye
      have h1 : applyIf (fun z => z.id == qid)
          (fun z => { z with status := "posted", updated_at := now }) x = x := by
        simp [applyIf, hpx]
      have h2 : applyIf (fun z => z.id == qid)
          (fun z => { z with status := "posted", updated_at := now }) y
          = { y with status := "posted", updated_at := now } := by simp [applyIf, hpy]
      rw [h1, h2]
      have hxy2 : sameIdxSlot x y = false :=
        (List.Pairwise.forall hsymm hex) hx hy hxy
      calc sameIdxSlot x { y with status := "posted", updated_at := now }
          = sameIdxSlot x y := by simp [sameIdxSlot, inIdx, hst]
        _ = false := hxy2
  have hidmap : ∀ x : QueueEntry, (applyIf (fun z => z.id == qid)
      (fun z => { z with status := "posted", updated_at := now }) x).id = x.id := by
    intro x
    by_cases hpx : (x.id == qid) = true
    · simp [applyIf, hpx]
    · simp [applyIf, Bool.not_eq_true _ ▸ hpx]
  have happ : applyQueueUpdate db.queue (fun x => x.id == qid)
      (fun x => { x with status := "posted", updated_at := now })
      = Except.ok (db.queue.map (applyIf (fun z => z.id == qid)
          (fun z => { z with status := "posted", updated_at := now })),
        db.queue.countP fun x => x.id == qid) := by
    rw [applyQueueUpdate, if_neg (by rw [hsafe]; exact Bool.false_ne_true)]
  have hfind2 : (db.queue.map (applyIf (fun z => z.id == qid)
      (fun z => { z with status := "posted", updated_at := now }))).find?
        (fun x => x.id == qid)
      = some { e with status := "posted", updated_at := now } := by
    rw [List.find?_map]
    have hcongr : ((fun x : QueueEntry => x.id == qid) ∘ applyIf (fun z => z.id == qid)
        (fun z => { z with status := "posted", updated_at := now }))
        = fun x : QueueEntry => x.id == qid := by
      funext x
      simp only [Function.comp]
      rw [hidmap x]
    rw [hcongr]
    cases hfq : db.queue.find? fun x => x.id == qid with
    | none =>
      exact absurd (by rw [heid]; exact beq_self_eq_true qid :
          (e.id == qid) = true)
        (by simpa using List.find?_eq_none.mp hfq e he)
    | some x =>
      have h0 := List.find?_some hfq
      have hxe : x = e := huniq x (List.mem_of_find?_eq_some hfq) h0
      subst hxe
      simp [applyIf, heid]
  rw [mark_as_posted, happ]
  simp only [hfind2]
  refine ⟨trivial, trivial, ?_⟩
  show _ ∈ db.queue.map _
  have : applyIf (fun z => z.id == qid)
      (fun z => { z with status := "posted", updated_at := now }) e
      = { e with status := "posted", updated_at := now } := by simp [applyIf, heid]
  rw [← this]
  exact List.mem_map_of_mem _ he

theorem claim_C6_witness :
    (mark_as_posted ⟨1, 9, 4, 0⟩
      { emptyDB with queue := [{ id := 1
                                 candidate_id := 7
                                 status := "scheduled"
                                 scheduled_at := some ⟨1, 9, 0, 0⟩
                                 created_at := ⟨0, 1, 0, 0⟩
                                 updated_at := ⟨0, 1, 0, 0⟩ }] } 1 none none).2 = some true ∧
    ((mark_as_posted ⟨1, 9, 4, 0⟩
      { emptyDB with queue := [{ id := 1
                                 candidate_id := 7
                                 status := "scheduled"
                                 scheduled_at := some ⟨1, 9, 0, 0⟩
                                 created_at := ⟨0, 1, 0, 0⟩
                                 updated_at := ⟨0, 1, 0, 0⟩ }] } 1 none none).1).published =
      (emptyDB : DB).published ++ [{ candidate_id := 7
                                     tweet_id := none
                                     posted_at := ⟨1, 9, 4, 0⟩
                                     platform_response := none }] ∧
    ({ id := 1
       candidate_id := 7
       status := "posted"
       scheduled_at := some ⟨1, 9, 0, 0⟩
       created_at := ⟨0, 1, 0, 0⟩
       updated_at := ⟨1, 9, 4, 0⟩ } : QueueEntry) ∈
      ((mark_as_posted ⟨1, 9, 4, 0⟩
        { emptyDB with queue := [{ id := 1
                                   candidate_id := 7
                                   status := "scheduled"
                                   scheduled_at := some ⟨1, 9, 0, 0⟩
                                   created_at := ⟨0, 1, 0, 0⟩
                                   updated_at := ⟨0, 1, 0, 0⟩ }] } 1 none none).1).queue :=
  claim_C6_amended ⟨1, 9, 4, 0⟩ _ 1 none none
    { id := 1
      candidate_id := 7
      status := "scheduled"
      scheduled_at := some ⟨1, 9, 0, 0⟩
      created_at := ⟨0, 1, 0, 0⟩
      updated_at := ⟨0, 1, 0, 0⟩ }
    (by decide) rfl rfl (by unfold SlotExclusive; decide) (by decide)

lemma aligned_get_next_day_slot (cfg : SchedulerConfig) (dt : DateTime) :
    AlignedSlotTime cfg (get_next_day_slot cfg dt) :=
  ⟨rfl, Or.inl rfl⟩

lemma aligned_get_next_slot_after (cfg : SchedulerConfig) (dt : DateTime) :
    AlignedSlotTime cfg (get_next_slot_after cfg dt) := by
  rw [get_next_slot_after]
  split
  · split
    · exact ⟨rfl, Or.inr rfl⟩
    · exact ⟨rfl, Or.inl rfl⟩
  · exact aligned_get_next_day_slot cfg dt

lemma try_slot_on_day_eq {db : DB} {ft : DateTime} {d : Nat} {hm : Nat × Nat} {s : DateTime}
    (h : try_slot_on_day db ft d hm = some s) : s = slotAt d hm := by
  rw [try_slot_on_day] at h
  split at h
  · cases h
  · split at h
    · cases h
    · cases h; rfl

lemma find_slot_in_day_aligned {cfg : SchedulerConfig} {db : DB} {ft : DateTime}
    {d : Nat} {s : DateTime} (h : find_slot_in_day cfg db ft d = some s) :
    AlignedSlotTime cfg s := by
  rw [find_slot_in_day] at h
  cases h0 : try_slot_on_day db ft d cfg.slot0 with
  | some s0 =>
    rw [h0] at h
    cases h
    exact (try_slot_on_day_eq h0) ▸ ⟨rfl, Or.inl rfl⟩
  | none =>
    rw [h0] at h
    exact (try_slot_on_day_eq h) ▸ ⟨rfl, Or.inr rfl⟩

lemma aligned_next_available_from (cfg : SchedulerConfig) (db : DB) (ft : DateTime) :
    ∀ (fuel d : Nat), AlignedSlotTime cfg (next_available_from cfg db ft fuel d) := by
  intro fuel
  induction fuel with
  | zero => intro d; exact ⟨rfl, Or.inl rfl⟩
  | succ n ih =>
    intro d
    rw [next_available_from]
    cases h : find_slot_in_day cfg db ft d with
    | some s => exact find_slot_in_day_aligned h
    | none => exact ih (d + 1)

lemma aligned_get_next_available_slot (cfg : SchedulerConfig) (db : DB) (ft : DateTime) :
    AlignedSlotTime cfg (get_next_available_slot cfg db ft) :=
  aligned_next_available_from cfg db ft 30 ft.day

lemma mem_day_filter {cfg : SchedulerConfig} {q : List QueueEntry} {d : Nat} {x : QueueEntry}
    (hal : SlotAligned cfg q) (hx : x ∈ q.filter (onDayIdx d)) :
    x ∈ q ∧ inIdx x = true ∧
    (x.scheduled_at = some ⟨d, cfg.slot0.1, cfg.slot0.2, 0⟩ ∨
     x.scheduled_at = some ⟨d, cfg.slot1.1, cfg.slot1.2, 0⟩) := by
  rw [List.mem_filter] at hx
  obtain ⟨hxq, hcond⟩ := hx
  rw [onDayIdx, Bool.and_eq_true] at hcond
  obtain ⟨hday, hidx⟩ := hcond
  refine ⟨hxq, hidx, ?_⟩
  cases hsched : x.scheduled_at with
  | none => rw [hsched] at hday; cases hday
  | some t =>
    rw [hsched] at hday
    simp only [beq_iff_eq] at hday
    obtain ⟨hsec, hhm⟩ := hal x hxq hidx t hsched
    have ht : t = ⟨d, t.hour, t.minute, 0⟩ := by
      cases t
      dsimp only at hday hsec ⊢
      rw [hday, hsec]
    rcases hhm with h0 | h0
    · left
      have h1 : t.hour = cfg.slot0.1 := congrArg Prod.fst h0
      have h2 : t.minute = cfg.slot0.2 := congrArg Prod.snd h0
      rw [ht, h1, h2]
    · right
      have h1 : t.hour = cfg.slot1.1 := congrArg Prod.fst h0
      have h2 : t.minute = cfg.slot1.2 := congrArg Prod.snd h0
      rw [ht, h1, h2]

lemma sameIdxSlot_true_of {x y : QueueEntry} {t : DateTime}
    (hix : inIdx x = true) (hiy : inIdx y = true)
    (hsx : x.scheduled_at = some t) (hsy : y.scheduled_at = some t) :
    sameIdxSlot x y = true := by
  simp [sameIdxSlot, hix, hiy, hsx, hsy]

lemma count_on_day_le_two {cfg : SchedulerConfig} {q : List QueueEntry}
    (hex : SlotExclusive q) (hal : SlotAligned cfg q) (d : Nat) :
    count_on_day q d ≤ 2 := by
  rw [count_on_day]
  by_contra hgt
  push_neg at hgt
  obtain ⟨x, y, z, rest, hl⟩ : ∃ x y z rest, q.filter (onDayIdx d) = x :: y :: z :: rest := by
    cases h1 : q.filter (onDayIdx d) with
    | nil => rw [h1] at hgt; simp at hgt
    | cons x l1 =>
      cases l1 with
      | nil => rw [h1] at hgt; simp at hgt
      | cons y l2 =>
        cases l2 with
        | nil => rw [h1] at hgt; simp at hgt
        | cons z rest => exact ⟨x, y, z, rest, rfl⟩
  have hpair : (q.filter (onDayIdx d)).Pairwise (fun a b => sameIdxSlot a b = false) :=
    List.Pairwise.sublist (List.filter_sublist q) hex
  rw [hl, List.pairwise_cons] at hpair
  obtain ⟨hx_all, hpair2⟩ := hpair
  rw [List.pairwise_cons] at hpair2
  obtain ⟨hy_all, _⟩ := hpair2
  have rxy := hx_all y (List.mem_cons_self _ _)
  have rxz := hx_all z (List.mem_cons_of_mem _ (List.mem_cons_self _ _))
  have ryz := hy_all z (List.mem_cons_self _ _)
  have hxm := mem_day_filter hal (hl ▸ List.mem_cons_self x (y :: z :: rest))
  have hym := mem_day_filter hal
    (hl ▸ List.mem_cons_of_mem x (List.mem_cons_self y (z :: rest)))
  have hzm := mem_day_filter hal
    (hl ▸ List.mem_cons_of_mem x (List.mem_cons_of_mem y (List.mem_cons_self z rest)))
  obtain ⟨_, hix, hsx⟩ := hxm
  obtain ⟨_, hiy, hsy⟩ := hym
  obtain ⟨_, hiz, hsz⟩ := hzm
  rcases hsx with hx1 | hx1 <;> rcases hsy with hy1 | hy1 <;> rcases hsz with hz1 | hz1
  · exact absurd (sameIdxSlot_true_of hix hiy hx1 hy1) (by rw [rxy]; exact Bool.false_ne_true)
  · exact absurd (sameIdxSlot_true_of hix hiy hx1 hy1) (by rw [rxy]; exact Bool.false_ne_true)
  · exact absurd (sameIdxSlot_true_of hix hiz hx1 hz1) (by rw [rxz]; exact Bool.false_ne_true)
  · exact absurd (sameIdxSlot_true_of hiy hiz hy1 hz1) (by rw [ryz]; exact Bool.false_ne_true)
  · exact absurd (sameIdxSlot_true_of hiy hiz hy1 hz1) (by rw [ryz]; exact Bool.false_ne_true)
  · exact absurd (sameIdxSlot_true_of hix hiz hx1 hz1) (by rw [rxz]; exact Bool.false_ne_true)
  · exact absurd (sameIdxSlot_true_of hix hiy hx1 hy1) (by rw [rxy]; exact Bool.false_ne_true)
  · exact absurd (sameIdxSlot_true_of hix hiy hx1 hy1) (by rw [rxy]; exact Bool.false_ne_true)

lemma exists_first_slot_row {cfg : SchedulerConfig} {q : List QueueEntry} {d : Nat}
    (hex : SlotExclusive q) (hal : SlotAligned cfg q) (h2 : 2 ≤ count_on_day q d) :
    ∃ y ∈ q, inIdx y = true ∧
      y.scheduled_at = some ⟨d, cfg.slot0.1, cfg.slot0.2, 0⟩ := by
  rw [count_on_day] at h2
  obtain ⟨x, y, rest, hl⟩ : ∃ x y rest, q.filter (onDayIdx d) = x :: y :: rest := by
    cases h1 : q.filter (onDayIdx d) with
    | nil => rw [h1] at h2; simp at h2
    | cons x l1 =>
      cases l1 with
      | nil => rw [h1] at h2; simp at h2
      | cons y rest => exact ⟨x, y, rest, rfl⟩
  have hpair : (q.filter (onDayIdx d)).Pairwise (fun a b => sameIdxSlot a b = false) :=
    List.Pairwise.sublist (List.filter_sublist q) hex
  rw [hl, List.pairwise_cons] at hpair
  have rxy := hpair.1 y (List.mem_cons_self _ _)
  have hxm := mem_day_filter hal (hl ▸ List.mem_cons_self x (y :: rest))
  have hym := mem_day_filter hal
    (hl ▸ List.mem_cons_of_mem x (List.mem_cons_self y rest))
  obtain ⟨hxq, hix, hsx⟩ := hxm
  obtain ⟨hyq, hiy, hsy⟩ := hym
  rcases hsx with hx1 | hx1
  · exact ⟨x, hxq, hix, hx1⟩
  · rcases hsy with hy1 | hy1
    · exact ⟨y, hyq, hiy, hy1⟩
    · exact absurd (sameIdxSlot_true_of hix hiy hx1 hy1) (by rw [rxy]; exact Bool.false_ne_true)

lemma count_on_day_cons (a : QueueEntry) (l : List QueueEntry) (d : Nat) :
    count_on_day (a :: l) d
      = (if onDayIdx d a = true then 1 else 0) + count_on_day l d := by
  rw [count_on_day, List.filter_cons]
  by_cases h : onDayIdx d a = true
  · rw [if_pos h, if_pos h, List.length_cons, count_on_day]
    omega
  · rw [if_neg h, if_neg h, count_on_day]
    omega

lemma count_on_day_map_update {pred : QueueEntry → Bool} (now slot2 : DateTime) :
    ∀ q : List QueueEntry, (∀ x ∈ q, pred x = true → inIdx x = false) → ∀ d : Nat,
    count_on_day (q.map (applyIf pred (sched_update now slot2))) d
      = count_on_day q d + (if slot2.day = d then q.countP pred else 0) := by
  intro q
  induction q with
  | nil => intro _ d; simp [count_on_day]
  | cons e rest ih =>
    intro hni d
    have ihr := ih (fun x hx => hni x (List.mem_cons_of_mem _ hx)) d
    rw [List.map_cons, count_on_day_cons, count_on_day_cons, List.countP_cons, ihr]
    by_cases hpe : pred e = true
    · have hie : inIdx e = false := hni e (List.mem_cons_self _ _) hpe
      have hodE : onDayIdx d e = false := by
        rw [onDayIdx, hie]
        exact Bool.and_false _
      have hge : applyIf pred (sched_update now slot2) e = sched_update now slot2 e := by
        simp [applyIf, hpe]
      have hodG : onDayIdx d (sched_update now slot2 e) = (slot2.day == d) := by
        rw [onDayIdx, sched_update]
        simp [inIdx]
      rw [hge, hodG, hodE, if_neg Bool.false_ne_true, hpe, if_pos rfl]
      by_cases hd : slot2.day = d
      · rw [if_pos (by rw [hd]; exact beq_self_eq_true d), if_pos hd, if_pos hd]
        omega
      · rw [if_neg (by rw [beq_eq_false_iff_ne.mpr hd]; exact Bool.false_ne_true),
            if_neg hd, if_neg hd]
        omega
    · have hpe2 : pred e = false := by
        cases h2 : pred e with
        | false => rfl
        | true => exact absurd h2 hpe
      have hge : applyIf pred (sched_update now slot2) e = e := by
        simp [applyIf, hpe2]
      rw [hge, hpe2, if_neg Bool.false_ne_true, Nat.add_zero]
      by_cases hd : slot2.day = d
      · rw [if_pos hd]
        omega
      · rw [if_neg hd]
        omega

lemma countP_id_eq_one {q : List QueueEntry} {tid : Nat}
    (hnd : (q.map fun x => x.id).Nodup)
    (e : QueueEntry) (he : e ∈ q) (heid : e.id = tid) :
    (q.countP fun x => x.id == tid) = 1 := by
  have h1 : (q.countP fun x => x.id == tid)
      = List.count tid (q.map fun x => x.id) := by
    rw [List.count_eq_countP, List.countP_map]
    rfl
  rw [h1]
  exact List.count_eq_one_of_mem hnd (by rw [← heid]; exact List.mem_map_of_mem _ he)

lemma schedule_loop_capOK (cfg : SchedulerConfig) (now : DateTime)
    (hcap : 2 ≤ cfg.max_tweets_per_day) :
    ∀ (rem : List QueueEntry) (db : DB) (slot : DateTime) (n : Nat),
    SlotExclusive db.queue →
    SlotAligned cfg db.queue →
    CapOK cfg.max_tweets_per_day db.queue →
    ((db.queue.map fun x => x.id).Nodup) →
    (∀ t ∈ rem, ∃ x ∈ db.queue,
      x.id = t.id ∧ x.status = "approved" ∧ x.scheduled_at = none) →
    ((rem.map fun t => t.id).Nodup) →
    AlignedSlotTime cfg slot →
    SlotExclusive ((schedule_loop cfg now rem db slot n).1).queue ∧
    SlotAligned cfg ((schedule_loop cfg now rem db slot n).1).queue ∧
    CapOK cfg.max_tweets_per_day ((schedule_loop cfg now rem db slot n).1).queue := by
  intro rem
  induction rem with
  | nil =>
    intro db slot n hex hal hcapok _ _ _ _
    exact ⟨hex, hal, hcapok⟩
  | cons t rest ih =>
    intro db slot n hex hal hcapok hnd hrem hremnd hslot
    rw [schedule_loop]
    have hslot2 : AlignedSlotTime cfg (roll_if_capped cfg db slot) := by
      rw [roll_if_capped]
      split
      · exact hslot
      · exact aligned_get_next_day_slot cfg slot
    obtain ⟨e, he, heid, hest, hesched⟩ := hrem t (List.mem_cons_self _ _)
    have huniq : ∀ x ∈ db.queue, (x.id == t.id) = true → x = e := fun x hx hbx =>
      List.inj_on_of_nodup_map hnd hx he (by rw [beq_iff_eq.mp hbx, heid])
    have hpe : (e.id == t.id) = true := by rw [heid]; exact beq_self_eq_true _
    have hnotidx : ∀ x ∈ db.queue, (x.id == t.id) = true → inIdx x = false := by
      intro x hx hbx
      rw [huniq x hx hbx, inIdx, hest]
      decide
    cases happ : applyQueueUpdate db.queue (fun x => x.id == t.id)
        (sched_update now (roll_if_capped cfg db slot)) with
    | error err => exact ⟨hex, hal, hcapok⟩
    | ok p =>
      obtain ⟨q2, cnt⟩ := p
      have hconf : updConflict (fun x => x.id == t.id)
          (sched_update now (roll_if_capped cfg db slot)) db.queue = false := by
        rw [applyQueueUpdate] at happ
        by_cases hc : updConflict (fun x => x.id == t.id)
            (sched_update now (roll_if_capped cfg db slot)) db.queue = true
        · rw [if_pos hc] at happ; cases happ
        · simpa using hc
      have hq2 : q2 = db.queue.map (applyIf (fun x => x.id == t.id)
          (sched_update now (roll_if_capped cfg db slot))) := by
        rw [applyQueueUpdate, if_neg (by rw [hconf]; exact Bool.false_ne_true)] at happ
        cases happ
        rfl
      have hex2 : SlotExclusive q2 := by
        rw [hq2]; exact slotEx_map_of_conflict_free hconf hex
      have hal2 : SlotAligned cfg q2 := by
        rw [hq2]
        intro x2 hx2 hidx2 t2 hsched2
        rw [List.mem_map] at hx2
        obtain ⟨x, hx, rfl⟩ := hx2
        by_cases hpx : (x.id == t.id) = true
        · have hgx : applyIf (fun z => z.id == t.id)
              (sched_update now (roll_if_capped cfg db slot)) x
              = sched_update now (roll_if_capped cfg db slot) x := by
            simp [applyIf, hpx]
          rw [hgx, sched_update] at hsched2
          simp only [Option.some.injEq] at hsched2
          rw [← hsched2]
          exact hslot2
        · have hpx2 : (x.id == t.id) = false := by
            cases h2 : (x.id == t.id) with
            | false => rfl
            | true => exact absurd h2 hpx
          have hgx : applyIf (fun z => z.id == t.id)
              (sched_update now (roll_if_capped cfg db slot)) x = x := by
            simp [applyIf, hpx2]
          rw [hgx] at hidx2 hsched2
          exact hal x hx hidx2 t2 hsched2
      have hids : ∀ x : QueueEntry, (applyIf (fun z => z.id == t.id)
          (sched_update now (roll_if_capped cfg db slot)) x).id = x.id := by
        intro x
        by_cases hpx : (x.id == t.id) = true
        · simp [applyIf, hpx, sched_update]
        · have hpx2 : (x.id == t.id) = false := by
            cases h2 : (x.id == t.id) with
            | false => rfl
            | true => exact absurd h2 hpx
          simp [applyIf, hpx2]
      have hnd2 : (q2.map fun x => x.id).Nodup := by
        rw [hq2, List.map_map]
        have : ((fun x : QueueEntry => x.id) ∘ applyIf (fun z => z.id == t.id)
            (sched_update now (roll_if_capped cfg db slot)))
            = fun x : QueueEntry => x.id := by
          funext x
          exact hids x
        rw [this]
        exact hnd
      have hremnd2 : ((rest.map fun x => x.id).Nodup) := by
        rw [List.map_cons, List.nodup_cons] at hremnd
        exact hremnd.2
      have htid_not : t.id ∉ rest.map fun x => x.id := by
        rw [List.map_cons, List.nodup_cons] at hremnd
        exact hremnd.1
      have hrem2 : ∀ t2 ∈ rest, ∃ x ∈ q2,
          x.id = t2.id ∧ x.status = "approved" ∧ x.scheduled_at = none := by
        intro t2 ht2
        obtain ⟨x, hx, hid2, happr, hnull⟩ := hrem t2 (List.mem_cons_of_mem _ ht2)
        have hne : t2.id ≠ t.id := by
          intro hcontra
          exact htid_not (hcontra ▸ List.mem_map_of_mem (fun x => x.id) ht2)
        have hpx2 : (x.id == t.id) = false := by
          rw [beq_eq_false_iff_ne]
          rw [hid2]
          exact hne
        have hgx : applyIf (fun z => z.id == t.id)
            (sched_update now (roll_if_capped cfg db slot)) x = x := by
          simp [applyIf, hpx2]
        refine ⟨x, ?_, hid2, happr, hnull⟩
        rw [hq2, ← hgx]
        exact List.mem_map_of_mem _ hx
      have hcap2 : CapOK cfg.max_tweets_per_day q2 := by
        rw [hq2]
        intro d
        rw [count_on_day_map_update now (roll_if_capped cfg db slot) db.queue hnotidx d,
            countP_id_eq_one hnd e he heid]
        by_cases hd : (roll_if_capped cfg db slot).day = d
        · rw [if_pos hd]
          have hlt : count_on_day db.queue d < cfg.max_tweets_per_day := by
            rw [← hd]
            by_cases hcan : can_schedule_on_day cfg db slot = true
            · have hs2 : roll_if_capped cfg db slot = slot := by
                rw [roll_if_capped, if_pos hcan]
              rw [hs2]
              rw [can_schedule_on_day] at hcan
              exact of_decide_eq_true hcan
            · have hs2 : roll_if_capped cfg db slot = get_next_day_slot cfg slot := by
                rw [roll_if_capped, if_neg hcan]
              rw [hs2]
              by_contra hge
              push_neg at hge
              have h2le : 2 ≤ count_on_day db.queue (get_next_day_slot cfg slot).day :=
                le_trans hcap hge
              have h2le2 : 2 ≤ count_on_day db.queue (slot.day + 1) := h2le
              obtain ⟨y, hy, hiy, hsy⟩ := exists_first_slot_row hex hal h2le2
              have hye : e ≠ y := by
                intro hcontra
                rw [← hcontra, inIdx, hest] at hiy
                exact absurd hiy (by decide)
              have hpy : (y.id == t.id) = false := by
                cases h2 : (y.id == t.id) with
                | false => rfl
                | true => exact absurd (huniq y hy h2).symm hye
              have hge' : applyIf (fun z => z.id == t.id)
                  (sched_update now (roll_if_capped cfg db slot)) e
                  = sched_update now (roll_if_capped cfg db slot) e := by
                simp [applyIf, hpe]
              have hgy : applyIf (fun z => z.id == t.id)
                  (sched_update now (roll_if_capped cfg db slot)) y = y := by
                simp [applyIf, hpy]
              have hsame : sameIdxSlot (applyIf (fun z => z.id == t.id)
                    (sched_update now (roll_if_capped cfg db slot)) e)
                  (applyIf (fun z => z.id == t.id)
                    (sched_update now (roll_if_capped cfg db slot)) y) = true := by
                rw [hge', hgy]
                rw [sameIdxSlot]
                rw [show (sched_update now (roll_if_capped cfg db slot) e).scheduled_at
                    = some (roll_if_capped cfg db slot) from rfl]
                rw [hs2, hsy]
                have hiy2 : y.status = "scheduled" ∨ y.status = "posted" := by
                  simpa [inIdx] using hiy
                simp [inIdx, sched_update, get_next_day_slot, hiy]
                exact hiy2
              have hc := updConflict_of_pair he hy hye (by rw [hpe]; rfl) hsame
              rw [hc] at hconf
              cases hconf
          omega
        · rw [if_neg hd]
          have := hcapok d
          omega
      have hres := ih { db with queue := q2 } (get_next_slot_after cfg (roll_if_capped cfg db slot))
        (n + 1) hex2 hal2 hcap2 hnd2 hrem2 hremnd2
        (aligned_get_next_slot_after cfg (roll_if_capped cfg db slot))
      exact hres

/-- C2 counterexample.  From a state satisfying the daily cap (two
scheduled entries on day 1 and two on day 2, cap 2), one call of
schedule_approved_tweets leaves day 2 with three scheduled entries: the
cap check fails on day 1, the cursor rolls to day 2 without re-checking
that day, and the assignment commits because the occupied timestamps of
day 2 are not exactly at the slot clock times. -/
theorem claim_C2_counterexample :
    count_on_day ({ emptyDB with queue :=
      [ { id := 1, candidate_id := 1, status := "scheduled",
          scheduled_at := some ⟨1, 10, 0, 0⟩, created_at := ⟨0, 0, 0, 1⟩,
          updated_at := ⟨0, 0, 0, 1⟩ }
      , { id := 2, candidate_id := 2, status := "scheduled",
          scheduled_at := some ⟨1, 11, 0, 0⟩, created_at := ⟨0, 0, 0, 2⟩,
          updated_at := ⟨0, 0, 0, 2⟩ }
      , { id := 3, candidate_id := 3, status := "scheduled",
          scheduled_at := some ⟨2, 10, 0, 0⟩, created_at := ⟨0, 0, 0, 3⟩,
          updated_at := ⟨0, 0, 0, 3⟩ }
      , { id := 4, candidate_id := 4, status := "scheduled",
          scheduled_at := some ⟨2, 11, 0, 0⟩, created_at := ⟨0, 0, 0, 4⟩,
          updated_at := ⟨0, 0, 0, 4⟩ }
      , { id := 5, candidate_id := 5, status := "approved",
          scheduled_at := none, created_at := ⟨0, 0, 0, 5⟩,
          updated_at := ⟨0, 0, 0, 5⟩ } ] } : DB).queue 1 = 2 ∧
    count_on_day ({ emptyDB with queue :=
      [ { id := 1, candidate_id := 1, status := "scheduled",
          scheduled_at := some ⟨1, 10, 0, 0⟩, created_at := ⟨0, 0, 0, 1⟩,
          updated_at := ⟨0, 0, 0, 1⟩ }
      , { id := 2, candidate_id := 2, status := "scheduled",
          scheduled_at := some ⟨1, 11, 0, 0⟩, created_at := ⟨0, 0, 0, 2⟩,
          updated_at := ⟨0, 0, 0, 2⟩ }
      , { id := 3, candidate_id := 3, status := "scheduled",
          scheduled_at := some ⟨2, 10, 0, 0⟩, created_at := ⟨0, 0, 0, 3⟩,
          updated_at := ⟨0, 0, 0, 3⟩ }
      , { id := 4, candidate_id := 4, status := "scheduled",
          scheduled_at := some ⟨2, 11, 0, 0⟩, created_at := ⟨0, 0, 0, 4⟩,
          updated_at := ⟨0, 0, 0, 4⟩ }
      , { id := 5, candidate_id := 5, status := "approved",
          scheduled_at := none, created_at := ⟨0, 0, 0, 5⟩,
          updated_at := ⟨0, 0, 0, 5⟩ } ] } : DB).queue 2 = 2 ∧
    count_on_day ((schedule_approved_tweets (mkSchedulerConfig 2 (9, 0) (21, 0))
      ⟨0, 22, 0, 0⟩
      { emptyDB with queue :=
      [ { id := 1, candidate_id := 1, status := "scheduled",
          scheduled_at := some ⟨1, 10, 0, 0⟩, created_at := ⟨0, 0, 0, 1⟩,
          updated_at := ⟨0, 0, 0, 1⟩ }
      , { id := 2, candidate_id := 2, status := "scheduled",
          scheduled_at := some ⟨1, 11, 0, 0⟩, created_at := ⟨0, 0, 0, 2⟩,
          updated_at := ⟨0, 0, 0, 2⟩ }
      , { id := 3, candidate_id := 3, status := "scheduled",
          scheduled_at := some ⟨2, 10, 0, 0⟩, created_at := ⟨0, 0, 0, 3⟩,
          updated_at := ⟨0, 0, 0, 3⟩ }
      , { id := 4, candidate_id := 4, status := "scheduled",
          scheduled_at := some ⟨2, 11, 0, 0⟩, created_at := ⟨0, 0, 0, 4⟩,
          updated_at := ⟨0, 0, 0, 4⟩ }
      , { id := 5, candidate_id := 5, status := "approved",
          scheduled_at := none, created_at := ⟨0, 0, 0, 5⟩,
          updated_at := ⟨0, 0, 0, 5⟩ } ] }).1).queue 2 = 3 := by decide

/-- C2 amended.  For stores whose scheduled-or-posted rows sit exactly on
the configured slot times (the shape the scheduler itself produces), with
distinct ids, slot exclusivity, and cap at least 2 (the default is exactly
2), a single call of schedule_approved_tweets preserves the daily cap,
whether it completes or aborts on the uniqueness constraint: the roll to
the next day cannot overfill it, because a full aligned day has its first
slot taken, which makes the unchecked assignment fail at the storage
layer. -/
theorem claim_C2_amended (cfg : SchedulerConfig) (now : DateTime) (db : DB)
    (hcap : 2 ≤ cfg.max_tweets_per_day)
    (hex : SlotExclusive db.queue)
    (hal : SlotAligned cfg db.queue)
    (hcapok : CapOK cfg.max_tweets_per_day db.queue)
    (hnd : (db.queue.map fun x => x.id).Nodup) :
    CapOK cfg.max_tweets_per_day ((schedule_approved_tweets cfg now db).1).queue := by
  rw [schedule_approved_tweets]
  refine (schedule_loop_capOK cfg now hcap (approved_pending db) db _ 0 hex hal hcapok hnd
    ?_ ?_ (aligned_get_next_available_slot cfg db now)).2.2
  · intro t ht
    obtain ⟨hmem, happr, hnull⟩ := approved_pending_mem ht
    exact ⟨t, hmem, rfl, happr, hnull⟩
  · have hperm : (approved_pending db).Perm
        (db.queue.filter fun e => e.status == "approved" && e.scheduled_at == none) :=
      List.perm_insertionSort _ _
    have h1 : (((db.queue.filter fun e =>
        e.status == "approved" && e.scheduled_at == none)).map fun x => x.id).Nodup :=
      List.Nodup.sublist (List.Sublist.map _ (List.filter_sublist _)) hnd
    exact ((hperm.map _).nodup_iff).mpr h1

theorem claim_C2_witness :
    (2 ≤ (mkSchedulerConfig 2 (9, 0) (21, 0)).max_tweets_per_day ∧
     SlotExclusive ({ emptyDB with queue :=
        [{ id := 1, candidate_id := 1, status := "approved", scheduled_at := none,
           created_at := ⟨0, 0, 0, 1⟩, updated_at := ⟨0, 0, 0, 1⟩ }] } : DB).queue) ∧
    CapOK (mkSchedulerConfig 2 (9, 0) (21, 0)).max_tweets_per_day
      ((schedule_approved_tweets (mkSchedulerConfig 2 (9, 0) (21, 0)) ⟨0, 8, 0, 0⟩
        { emptyDB with queue :=
          [{ id := 1, candidate_id := 1, status := "approved", scheduled_at := none,
             created_at := ⟨0, 0, 0, 1⟩, updated_at := ⟨0, 0, 0, 1⟩ }] }).1).queue :=
  ⟨⟨by decide, by unfold SlotExclusive; decide⟩,
   claim_C2_amended (mkSchedulerConfig 2 (9, 0) (21, 0)) ⟨0, 8, 0, 0⟩ _
     (by decide)
     (by unfold SlotExclusive; decide)
     (by
       intro e he hidx t hsched
       rw [List.mem_singleton] at he
       subst he
       exact absurd hidx (by decide))
     (by
       intro d
       simp [count_on_day, onDayIdx])
     (by decide)⟩

lemma next_available_from_succ (cfg : SchedulerConfig) (db : DB) (ft : DateTime)
    (fuel d : Nat) :
    next_available_from cfg db ft (fuel + 1) d
      = match find_slot_in_day cfg db ft d with
        | some s => s
        | none => next_available_from cfg db ft fuel (d + 1) := rfl

/-- C9 amended.  With the default configuration (slots 09:00 and 21:00, cap
2) and the current time before the first slot of its day, a queue holding
exactly three approved unscheduled entries with increasing creation times
and distinct ids is scheduled in full: the run returns 3, the two oldest
entries take the two slots of the current day and the third takes the
first slot of the following day, in creation order. -/
theorem claim_C9_amended
    (db : DB) (now : DateTime)
    (i1 i2 i3 k1 k2 k3 : Nat) (t1 t2 t3 u1 u2 u3 : DateTime)
    (hq : db.queue =
      [ ⟨i1, k1, "approved", none, t1, u1⟩
      , ⟨i2, k2, "approved", none, t2, u2⟩
      , ⟨i3, k3, "approved", none, t3, u3⟩ ])
    (h12 : dtLe t1 t2 = true) (h23 : dtLe t2 t3 = true)
    (hi12 : i1 ≠ i2) (hi13 : i1 ≠ i3) (hi23 : i2 ≠ i3)
    (hnow : dtLe ⟨now.day, 9, 0, 0⟩ now = false) :
    (schedule_approved_tweets (mkSchedulerConfig 2 (9, 0) (21, 0)) now db).2 = some 3 ∧
    ((schedule_approved_tweets (mkSchedulerConfig 2 (9, 0) (21, 0)) now db).1).queue =
      [ ⟨i1, k1, "scheduled", some ⟨now.day, 9, 0, 0⟩, t1, now⟩
      , ⟨i2, k2, "scheduled", some ⟨now.day, 21, 0, 0⟩, t2, now⟩
      , ⟨i3, k3, "scheduled", some ⟨now.day + 1, 9, 0, 0⟩, t3, now⟩ ] := by
  have hcfg : mkSchedulerConfig 2 (9, 0) (21, 0)
      = (⟨2, (9, 0), (21, 0)⟩ : SchedulerConfig) := by decide
  have b11 : (i1 == i1) = true := beq_self_eq_true i1
  have b22 : (i2 == i2) = true := beq_self_eq_true i2
  have b33 : (i3 == i3) = true := beq_self_eq_true i3
  have b21 : (i2 == i1) = false := beq_eq_false_iff_ne.mpr (Ne.symm hi12)
  have b31 : (i3 == i1) = false := beq_eq_false_iff_ne.mpr (Ne.symm hi13)
  have b12 : (i1 == i2) = false := beq_eq_false_iff_ne.mpr hi12
  have b32 : (i3 == i2) = false := beq_eq_false_iff_ne.mpr (Ne.symm hi23)
  have b13 : (i1 == i3) = false := beq_eq_false_iff_ne.mpr hi13
  have b23 : (i2 == i3) = false := beq_eq_false_iff_ne.mpr hi23
  have n21 : ¬ i2 = i1 := Ne.symm hi12
  have n31 : ¬ i3 = i1 := Ne.symm hi13
  have n12 : ¬ i1 = i2 := hi12
  have n32 : ¬ i3 = i2 := Ne.symm hi23
  have n13 : ¬ i1 = i3 := hi13
  have n23 : ¬ i2 = i3 := hi23
  have sAA : ("approved" == "approved" : Bool) = true := by decide
  have sAS : ("approved" == "scheduled" : Bool) = false := by decide
  have sAP : ("approved" == "posted" : Bool) = false := by decide
  have sSS : ("scheduled" == "scheduled" : Bool) = true := by decide
  have hDD : (now.day == now.day + 1) = false := by
    rw [beq_eq_false_iff_ne]; omega
  have hD : (now.day == now.day) = true := beq_self_eq_true now.day
  have oNS : ∀ x : DateTime, ((none : Option DateTime) == some x) = false := by
    intro x; rw [beq_eq_false_iff_ne]; simp
  have oN : ((none : Option DateTime) == none) = true := by decide
  have d921 : ((some (⟨now.day, 9, 0, 0⟩ : DateTime)) == some ⟨now.day, 21, 0, 0⟩) = false := by
    rw [beq_eq_false_iff_ne]; simp
  have d9n9 : ((some (⟨now.day, 9, 0, 0⟩ : DateTime)) == some ⟨now.day + 1, 9, 0, 0⟩) = false := by
    rw [beq_eq_false_iff_ne]
    intro h
    rw [Option.some.injEq, DateTime.mk.injEq] at h
    omega
  have d21n9 : ((some (⟨now.day, 21, 0, 0⟩ : DateTime)) == some ⟨now.day + 1, 9, 0, 0⟩) = false := by
    rw [beq_eq_false_iff_ne]
    intro h
    rw [Option.some.injEq, DateTime.mk.injEq] at h
    omega
  -- stage 1: the SELECT returns the three entries in creation order
  have hap : approved_pending db =
      [ ⟨i1, k1, "approved", none, t1, u1⟩
      , ⟨i2, k2, "approved", none, t2, u2⟩
      , ⟨i3, k3, "approved", none, t3, u3⟩ ] := by
    rw [approved_pending, hq]
    simp [List.insertionSort, List.orderedInsert, h12, h23, sAA, oN]
  -- stage 2: the first available slot is the morning slot of today
  have hslotinit : get_next_available_slot ⟨2, (9, 0), (21, 0)⟩ db now
      = ⟨now.day, 9, 0, 0⟩ := by
    have hfs : find_slot_in_day ⟨2, (9, 0), (21, 0)⟩ db now now.day
        = some ⟨now.day, 9, 0, 0⟩ := by
      rw [find_slot_in_day, try_slot_on_day]
      simp [slotAt, hnow, slot_taken, hq, oNS]
    rw [get_next_available_slot, show (30 : Nat) = 29 + 1 from rfl,
        next_available_from_succ, hfs]
  -- stage 3: the three iterations
  have hroll1 : roll_if_capped ⟨2, (9, 0), (21, 0)⟩ db ⟨now.day, 9, 0, 0⟩
      = ⟨now.day, 9, 0, 0⟩ := by
    rw [roll_if_capped, if_pos]
    rw [can_schedule_on_day, hq]
    simp [count_on_day, onDayIdx, inIdx, sAS, sAP]
  have happ1 : applyQueueUpdate db.queue (fun x => x.id == i1)
      (sched_update now ⟨now.day, 9, 0, 0⟩)
      = Except.ok
        ([ ⟨i1, k1, "scheduled", some ⟨now.day, 9, 0, 0⟩, t1, now⟩
         , ⟨i2, k2, "approved", none, t2, u2⟩
         , ⟨i3, k3, "approved", none, t3, u3⟩ ], 1) := by
    rw [applyQueueUpdate, hq]
    rw [if_neg]
    · simp [applyIf, sched_update, b11, b21, b31, List.countP_cons]
    · simp [updConflict, applyIf, sched_update, sameIdxSlot, inIdx,
        b11, b21, b31, n21, n31, sAS, sAP, sSS, oNS]
  have hnext1 : get_next_slot_after ⟨2, (9, 0), (21, 0)⟩ ⟨now.day, 9, 0, 0⟩
      = ⟨now.day, 21, 0, 0⟩ := by
    rw [get_next_slot_after]
    simp [get_slot_index]
  have hroll2 : roll_if_capped ⟨2, (9, 0), (21, 0)⟩
      { db with queue :=
        [ ⟨i1, k1, "scheduled", some ⟨now.day, 9, 0, 0⟩, t1, now⟩
        , ⟨i2, k2, "approved", none, t2, u2⟩
        , ⟨i3, k3, "approved", none, t3, u3⟩ ] } ⟨now.day, 21, 0, 0⟩
      = ⟨now.day, 21, 0, 0⟩ := by
    rw [roll_if_capped, if_pos]
    rw [can_schedule_on_day]
    simp [count_on_day, onDayIdx, inIdx, sAS, sAP, sSS, hD]
  have happ2 : applyQueueUpdate
      [ (⟨i1, k1, "scheduled", some ⟨now.day, 9, 0, 0⟩, t1, now⟩ : QueueEntry)
      , ⟨i2, k2, "approved", none, t2, u2⟩
      , ⟨i3, k3, "approved", none, t3, u3⟩ ] (fun x => x.id == i2)
      (sched_update now ⟨now.day, 21, 0, 0⟩)
      = Except.ok
        ([ ⟨i1, k1, "scheduled", some ⟨now.day, 9, 0, 0⟩, t1, now⟩
         , ⟨i2, k2, "scheduled", some ⟨now.day, 21, 0, 0⟩, t2, now⟩
         , ⟨i3, k3, "approved", none, t3, u3⟩ ], 1) := by
    rw [applyQueueUpdate]
    rw [if_neg]
    · simp [applyIf, sched_update, b12, b22, b32, List.countP_cons]
    · simp [updConflict, applyIf, sched_update, sameIdxSlot, inIdx,
        b12, b22, b32, n12, n32, sAS, sAP, sSS, oNS, d921]
  have hnext2 : get_next_slot_after ⟨2, (9, 0), (21, 0)⟩ ⟨now.day, 21, 0, 0⟩
      = ⟨now.day + 1, 9, 0, 0⟩ := by
    rw [get_next_slot_after]
    simp [get_slot_index, get_next_day_slot]
  have hroll3 : roll_if_capped ⟨2, (9, 0), (21, 0)⟩
      { db with queue :=
        [ ⟨i1, k1, "scheduled", some ⟨now.day, 9, 0, 0⟩, t1, now⟩
        , ⟨i2, k2, "scheduled", some ⟨now.day, 21, 0, 0⟩, t2, now⟩
        , ⟨i3, k3, "approved", none, t3, u3⟩ ] } ⟨now.day + 1, 9, 0, 0⟩
      = ⟨now.day + 1, 9, 0, 0⟩ := by
    rw [roll_if_capped, if_pos]
    rw [can_schedule_on_day]
    simp [count_on_day, onDayIdx, inIdx, sAS, sAP, sSS, hDD]
  have happ3 : applyQueueUpdate
      [ (⟨i1, k1, "scheduled", some ⟨now.day, 9, 0, 0⟩, t1, now⟩ : QueueEntry)
      , ⟨i2, k2, "scheduled", some ⟨now.day, 21, 0, 0⟩, t2, now⟩
      , ⟨i3, k3, "approved", none, t3, u3⟩ ] (fun x => x.id == i3)
      (sched_update now ⟨now.day + 1, 9, 0, 0⟩)
      = Except.ok
        ([ ⟨i1, k1, "scheduled", some ⟨now.day, 9, 0, 0⟩, t1, now⟩
         , ⟨i2, k2, "scheduled", some ⟨now.day, 21, 0, 0⟩, t2, now⟩
         , ⟨i3, k3, "scheduled", some ⟨now.day + 1, 9, 0, 0⟩, t3, now⟩ ], 1) := by
    rw [applyQueueUpdate]
    rw [if_neg]
    · simp [applyIf, sched_update, b13, b23, b33, List.countP_cons]
    · simp [updConflict, applyIf, sched_update, sameIdxSlot, inIdx,
        b13, b23, b33, n13, n23, sAS, sAP, sSS, oNS, d9n9, d21n9]
  rw [hcfg, schedule_approved_tweets, hap, hslotinit]
  simp only [schedule_loop, hroll1, happ1, hnext1, hroll2, happ2, hnext2, hroll3, happ3]
  refine ⟨?_, ?_⟩ <;> trivial

/-- C9 counterexample.  With three approved entries and the current time
between the two slots (10:00), the run still returns 3, but the two oldest
entries do not share a day: the first lands on the evening slot of day 0
and the second on the morning slot of day 1, so the claimed two-slots-of-
the-first-available-day shape fails. -/
theorem claim_C9_counterexample :
    (schedule_approved_tweets (mkSchedulerConfig 2 (9, 0) (21, 0)) ⟨0, 10, 0, 0⟩
      { emptyDB with queue :=
        [ { id := 1, candidate_id := 1, status := "approved", scheduled_at := none,
            created_at := ⟨0, 0, 0, 1⟩, updated_at := ⟨0, 0, 0, 1⟩ }
        , { id := 2, candidate_id := 2, status := "approved", scheduled_at := none,
            created_at := ⟨0, 0, 0, 2⟩, updated_at := ⟨0, 0, 0, 2⟩ }
        , { id := 3, candidate_id := 3, status := "approved", scheduled_at := none,
            created_at := ⟨0, 0, 0, 3⟩, updated_at := ⟨0, 0, 0, 3⟩ } ] }).2 = some 3 ∧
    (((schedule_approved_tweets (mkSchedulerConfig 2 (9, 0) (21, 0)) ⟨0, 10, 0, 0⟩
      { emptyDB with queue :=
        [ { id := 1, candidate_id := 1, status := "approved", scheduled_at := none,
            created_at := ⟨0, 0, 0, 1⟩, updated_at := ⟨0, 0, 0, 1⟩ }
        , { id := 2, candidate_id := 2, status := "approved", scheduled_at := none,
            created_at := ⟨0, 0, 0, 2⟩, updated_at := ⟨0, 0, 0, 2⟩ }
        , { id := 3, candidate_id := 3, status := "approved", scheduled_at := none,
            created_at := ⟨0, 0, 0, 3⟩, updated_at := ⟨0, 0, 0, 3⟩ } ] }).1).queue.map
      (fun e => e.scheduled_at))
      = [ some ⟨0, 21, 0, 0⟩, some ⟨1, 9, 0, 0⟩, some ⟨1, 21, 0, 0⟩ ] ∧
    (0 : Nat) ≠ 1 := by decide

theorem claim_C9_witness :
    (dtLe ⟨(⟨5, 8, 0, 0⟩ : DateTime).day, 9, 0, 0⟩ ⟨5, 8, 0, 0⟩ = false) ∧
    (schedule_approved_tweets (mkSchedulerConfig 2 (9, 0) (21, 0)) ⟨5, 8, 0, 0⟩
      { emptyDB with queue :=
        [ ⟨1, 1, "approved", none, ⟨0, 0, 0, 1⟩, ⟨0, 0, 0, 1⟩⟩
        , ⟨2, 2, "approved", none, ⟨0, 0, 0, 2⟩, ⟨0, 0, 0, 2⟩⟩
        , ⟨3, 3, "approved", none, ⟨0, 0, 0, 3⟩, ⟨0, 0, 0, 3⟩⟩ ] }).2 = some 3 ∧
    ((schedule_approved_tweets (mkSchedulerConfig 2 (9, 0) (21, 0)) ⟨5, 8, 0, 0⟩
      { emptyDB with queue :=
        [ ⟨1, 1, "approved", none, ⟨0, 0, 0, 1⟩, ⟨0, 0, 0, 1⟩⟩
        , ⟨2, 2, "approved", none, ⟨0, 0, 0, 2⟩, ⟨0, 0, 0, 2⟩⟩
        , ⟨3, 3, "approved", none, ⟨0, 0, 0, 3⟩, ⟨0, 0, 0, 3⟩⟩ ] }).1).queue =
      [ ⟨1, 1, "scheduled", some ⟨5, 9, 0, 0⟩, ⟨0, 0, 0, 1⟩, ⟨5, 8, 0, 0⟩⟩
      , ⟨2, 2, "scheduled", some ⟨5, 21, 0, 0⟩, ⟨0, 0, 0, 2⟩, ⟨5, 8, 0, 0⟩⟩
      , ⟨3, 3, "scheduled", some ⟨6, 9, 0, 0⟩, ⟨0, 0, 0, 3⟩, ⟨5, 8, 0, 0⟩⟩ ] :=
  ⟨by decide,
   (claim_C9_amended _ ⟨5, 8, 0, 0⟩ 1 2 3 1 2 3 ⟨0, 0, 0, 1⟩ ⟨0, 0, 0, 2⟩ ⟨0, 0, 0, 3⟩
     ⟨0, 0, 0, 1⟩ ⟨0, 0, 0, 2⟩ ⟨0, 0, 0, 3⟩ rfl (by decide) (by decide)
     (by decide) (by decide) (by decide) (by decide)).1,
   (claim_C9_amended _ ⟨5, 8, 0, 0⟩ 1 2 3 1 2 3 ⟨0, 0, 0, 1⟩ ⟨0, 0, 0, 2⟩ ⟨0, 0, 0, 3⟩
     ⟨0, 0, 0, 1⟩ ⟨0, 0, 0, 2⟩ ⟨0, 0, 0, 3⟩ rfl (by decide) (by decide)
     (by decide) (by decide) (by decide) (by decide)).2⟩
